import Mathlib

/-!
# FlameRobin: report titles, result-grid adapter and statement-history search

A shallow embedding of

* `src/gui/HtmlHeaderMetadataItemVisitor.cpp` (the per-kind title lists),
* `src/gui/controls/DataGridTable.cpp` (cell renderings, batched fetch, row deletion),
* `src/gui/StatementHistoryDialog.cpp` (history search and entry previews),

followed by theorems about these definitions.

Conventions.  A `wxString` is the list of its characters.  C++ `int` values are
`Int`, `unsigned`/`size_t` values are `Nat`; a conversion `(int)x` that the
source writes out is kept as `castInt`.  Objects that the source only
references (the IBPP statement, the grid view, the clock, the toolkit event
loop) appear as explicit components or parameters of the state, and so does the
upper-casing of characters, which depends on the locale the program sets.
-/

set_option autoImplicit false

namespace FlameRobin

/-! ## Toolkit strings -/

/-- A `wxString`, as the sequence of its characters. -/
abbrev wxString := List Char

/-- The line feed character, written `\n` in the source. -/
def LF : Char := Char.ofNat 10

/-- The carriage return character, written `\r` in the source. -/
def CR : Char := Char.ofNat 13

/-- The single quote character. -/
def APOS : Char := Char.ofNat 39

/-- The double quote character. -/
def DQUOTE : Char := Char.ofNat 34

/-- The value `wxNOT_FOUND`. -/
def wxNOT_FOUND : Int := -1

/-- The conversion `(int)x` applied to an unsigned (or wrapped) quantity:
the low 32 bits, read as a two's complement number. -/
def castInt (x : Int) : Int :=
  if x % 4294967296 < 2147483648 then x % 4294967296 else x % 4294967296 - 4294967296

/-- Worker of `Replace`: scans the text from the left; `skip` characters of a
match that has just been replaced are still to be passed over. -/
def replaceScan (old new : wxString) : Nat → wxString → wxString
  | _, [] => []
  | skip + 1, _ :: cs => replaceScan old new skip cs
  | 0, c :: cs =>
    if old.isPrefixOf (c :: cs) then new ++ replaceScan old new (old.length - 1) cs
    else c :: replaceScan old new 0 cs

/-- The call `s.Replace(old, new)` of wxString (all occurrences, left to right,
not overlapping); an empty `old` leaves the string as it is. -/
def Replace (s old new : wxString) : wxString :=
  if old = [] then s else replaceScan old new 0 s

/-- Worker of `Find`: `i` is the index of the head of the remaining text. -/
def findFrom (sub : wxString) : wxString → Nat → Int
  | [], i => if sub = [] then (i : Int) else wxNOT_FOUND
  | c :: cs, i => if sub.isPrefixOf (c :: cs) then (i : Int) else findFrom sub cs (i + 1)

/-- The call `s.Find(sub)` of wxString: index of the first occurrence, or `wxNOT_FOUND`. -/
def Find (s sub : wxString) : Int := findFrom sub s 0

/-- The call `s.Contains(sub)` of wxString. -/
def Contains (s sub : wxString) : Bool := decide (Find s sub ≠ wxNOT_FOUND)

/-- The call `s.Truncate(n)` of wxString: keeps the first `n` characters. -/
def Truncate (s : wxString) (n : Nat) : wxString := s.take n

/-- The call `s.Mid(first, count)` of wxString. -/
def Mid (s : wxString) (first count : Nat) : wxString := (s.drop first).take count

/-- The test `wxIsspace` in the C locale: space, tab, line feed, vertical tab,
form feed, carriage return. -/
def wxIsspace (c : Char) : Bool :=
  c.toNat = 32 || (9 ≤ c.toNat && c.toNat ≤ 13)

/-- The call `s.Trim()` of wxString (from the right): drops trailing white space. -/
def Trim (s : wxString) : wxString := (s.reverse.dropWhile wxIsspace).reverse

/-- The call `s.Upper()` of wxString: every character goes through the
upper-casing of the C library, `towupper`, under the locale the program has set
(`LocalSettings.cpp`); that mapping of characters is the parameter `towupper`. -/
def Upper (towupper : Char → Char) (s : wxString) : wxString := s.map towupper

/-! ## Metadata HTML header visitor (`HtmlHeaderMetadataItemVisitor.cpp`) -/

/-- The report sections whose titles the visitor can add. -/
inductive Title
  | Summary | Privileges | Constraints | Indices | Triggers | Dependencies | DDL
  deriving DecidableEq, Repr

/-- Modelled from the spec: the helper `emptyTitles` of the visitor's header,
which is not among the sources; it clears the title list. -/
def emptyTitles (_titlesM : List Title) : List Title := []

/-- Modelled from the spec: the helpers `addSummary`, `addPrivileges`, ... of the
visitor's header, which are not among the sources; each appends its one title. -/
def addTitle (x : Title) (titlesM : List Title) : List Title := titlesM ++ [x]

def addSummary : List Title → List Title := addTitle Title.Summary
def addPrivileges : List Title → List Title := addTitle Title.Privileges
def addConstraints : List Title → List Title := addTitle Title.Constraints
def addIndices : List Title → List Title := addTitle Title.Indices
def addTriggers : List Title → List Title := addTitle Title.Triggers
def addDependencies : List Title → List Title := addTitle Title.Dependencies
def addDDL : List Title → List Title := addTitle Title.DDL

def visitDatabase (titlesM : List Title) : List Title :=
  addDDL (addTriggers (addSummary (emptyTitles titlesM)))

def visitDomain (titlesM : List Title) : List Title :=
  addDDL (addSummary (emptyTitles titlesM))

def visitException (titlesM : List Title) : List Title :=
  addDDL (addDependencies (addSummary (emptyTitles titlesM)))

def visitFunction (titlesM : List Title) : List Title :=
  addDDL (addDependencies (addSummary (emptyTitles titlesM)))

def visitGenerator (titlesM : List Title) : List Title :=
  addDDL (addDependencies (addSummary (emptyTitles titlesM)))

def visitProcedure (titlesM : List Title) : List Title :=
  addDDL (addDependencies (addPrivileges (addSummary (emptyTitles titlesM))))

def visitRole (titlesM : List Title) : List Title :=
  addDDL (addPrivileges (addSummary (emptyTitles titlesM)))

def visitTable (titlesM : List Title) : List Title :=
  addDDL (addDependencies (addPrivileges (addTriggers (addIndices (addConstraints
    (addSummary (emptyTitles titlesM)))))))

def visitTrigger (titlesM : List Title) : List Title :=
  addDDL (addDependencies (addSummary (emptyTitles titlesM)))

def visitView (titlesM : List Title) : List Title :=
  addDDL (addDependencies (addPrivileges (addTriggers (addSummary (emptyTitles titlesM)))))

def defaultAction (titlesM : List Title) : List Title :=
  emptyTitles titlesM

/-- The kinds of metadata object a visitor can be sent to: the ten kinds this
visitor overrides, and `Other` for every kind it leaves to the base class. -/
inductive MetadataKind
  | Database | Domain | Exception | Function | Generator
  | Procedure | Role | Table | Trigger | View | Other
  deriving DecidableEq, Repr

/-- Modelled from the spec: the dispatch of the base class `MetadataItemVisitor`,
which is not among the sources; an object of a kind calls that kind's visit
method, and a visit method that is not overridden calls `defaultAction`. -/
def acceptVisitor (k : MetadataKind) (titlesM : List Title) : List Title :=
  match k with
  | .Database => visitDatabase titlesM
  | .Domain => visitDomain titlesM
  | .Exception => visitException titlesM
  | .Function => visitFunction titlesM
  | .Generator => visitGenerator titlesM
  | .Procedure => visitProcedure titlesM
  | .Role => visitRole titlesM
  | .Table => visitTable titlesM
  | .Trigger => visitTrigger titlesM
  | .View => visitView titlesM
  | .Other => defaultAction titlesM

/-- The fixed table of kind to ordered section list, as the specification gives it. -/
def sectionsOf : MetadataKind → List Title
  | .Database => [.Summary, .Triggers, .DDL]
  | .Domain => [.Summary, .DDL]
  | .Exception => [.Summary, .Dependencies, .DDL]
  | .Function => [.Summary, .Dependencies, .DDL]
  | .Generator => [.Summary, .Dependencies, .DDL]
  | .Trigger => [.Summary, .Dependencies, .DDL]
  | .Procedure => [.Summary, .Privileges, .Dependencies, .DDL]
  | .Role => [.Summary, .Privileges, .DDL]
  | .Table => [.Summary, .Constraints, .Indices, .Triggers, .Privileges, .Dependencies, .DDL]
  | .View => [.Summary, .Triggers, .Privileges, .Dependencies, .DDL]
  | .Other => []

/-! ## Result-grid adapter (`DataGridTable.cpp`) -/

/-- Modelled from the spec: the per-column metadata of the row cache (name,
nullability, numeric-ness, read-only flag); the class `DataGridRows` is not
among the sources. -/
structure ResultsetColumnDef where
  name : wxString
  nullable : Bool
  numeric : Bool
  readOnly : Bool
  deriving DecidableEq, Repr

/-- A field of a fetched row: `none` is NULL, `some s` holds the text `s`. -/
abbrev DataGridField := Option wxString

/-- Modelled from the spec: the row cache `DataGridRows`, which is not among the
sources: an ordered sequence of fetched rows plus per-column metadata. -/
structure DataGridRows where
  columnDefsM : List ResultsetColumnDef
  buffersM : List (List DataGridField)
  deriving DecidableEq, Repr

namespace DataGridRows

/-- Modelled from the spec: `getRowCount`, the number of cached rows. -/
def getRowCount (r : DataGridRows) : Nat := r.buffersM.length

/-- Modelled from the spec: `getRowFieldCount`, the number of columns. -/
def getRowFieldCount (r : DataGridRows) : Nat := r.columnDefsM.length

/-- The field stored at a position, if the cache has one there. -/
def field? (r : DataGridRows) (row col : Int) : Option DataGridField :=
  if row < 0 ∨ col < 0 then none
  else (r.buffersM.get? row.toNat).bind (fun b => b.get? col.toNat)

/-- Modelled from the spec: `isFieldNull`, whether the field at a position is NULL. -/
def isFieldNull (r : DataGridRows) (row col : Int) : Bool :=
  match r.field? row col with
  | some none => true
  | _ => false

/-- Modelled from the spec: `getFieldValue`, the text of the field at a position. -/
def getFieldValue (r : DataGridRows) (row col : Int) : wxString :=
  match r.field? row col with
  | some (some s) => s
  | _ => []

/-- Modelled from the spec: `isRowFieldNumeric`, the numeric-ness of a column. -/
def isRowFieldNumeric (r : DataGridRows) (col : Int) : Bool :=
  if col < 0 then false
  else match r.columnDefsM.get? col.toNat with
    | some d => d.numeric
    | none => false

/-- Modelled from the spec: `addRow`, which appends the row the statement has
just fetched to the cache. -/
def addRow (r : DataGridRows) (fetched : List DataGridField) : DataGridRows :=
  { r with buffersM := r.buffersM ++ [fetched] }

/-- Modelled from the spec: `clear`, which empties the cache (rows and columns). -/
def clear (_r : DataGridRows) : DataGridRows := { columnDefsM := [], buffersM := [] }

end DataGridRows

/-- What one call of `statementM->Fetch()` does: delivers a row (returns true),
reports that no row is left (returns false), or raises. -/
inductive FetchOutcome
  | row (fields : List DataGridField)
  | noMoreRows
  | ibppException (errorMessage : wxString)
  | otherException
  deriving DecidableEq, Repr

/-- The IBPP statement the adapter refers to, as far as the adapter looks at it. -/
structure Statement where
  /-- Whether `Type()` is `IBPP::stSelect`. -/
  isSelect : Bool
  /-- The value of `TransactionPtr()`: `none` is the null handle, `some b` a
  transaction with `Started() = b`. -/
  transaction : Option Bool
  /-- The column metadata of the prepared statement. -/
  columns : List ResultsetColumnDef
  /-- The outcomes of the coming `Fetch()` calls, in order; once the list is
  used up, `Fetch()` returns false. -/
  cursor : List FetchOutcome
  deriving DecidableEq, Repr

/-- The requests a `wxGridTableMessage` can carry. -/
inductive GridTableRequest
  | ROWS_APPENDED | ROWS_DELETED | COLS_APPENDED | COLS_DELETED
  deriving DecidableEq, Repr

/-- What the adapter sends out, in the order it does so. -/
inductive Effect
  /-- The call `GetView()->ProcessTableMessage(msg)`, with the two command integers of `msg`
  (the second is `-1` when the source passes one only). -/
  | tableMessage (request : GridTableRequest) (commandInt1 commandInt2 : Int)
  /-- A posted `wxEVT_FRDG_ROWCOUNT_CHANGED` event: view id and extra long. -/
  | rowCountChanged (viewId : Int) (extraLong : Nat)
  /-- A posted `wxEVT_FRDG_STATEMENT` event: view id and string. -/
  | statementEvent (viewId : Int) (text : wxString)
  /-- A modal `wxMessageBox`: message and caption. -/
  | messageBox (message caption : wxString)
  deriving DecidableEq, Repr

/-- The state of a `DataGridTable`. -/
structure DataGridTable where
  /-- The statement handle; `none` is the null handle (`statementM == 0`). -/
  statementM : Option Statement
  rowsM : DataGridRows
  allRowsFetchedM : Bool
  fetchAllRowsM : Bool
  maxRowToFetchM : Nat
  /-- The value of `GetView()`: `none` when no grid is attached, else the id of the grid. -/
  GetView : Option Int
  deriving DecidableEq, Repr

namespace DataGridTable

/-- The constructor.  `configFetchAll` is what the configuration holds under
`GridFetchAllRecords` (`none`: no such entry, the flag keeps its value). -/
def new (s : Option Statement) (configFetchAll : Option Bool) : DataGridTable :=
  { statementM := s
    rowsM := { columnDefsM := [], buffersM := [] }
    allRowsFetchedM := false
    fetchAllRowsM := configFetchAll.getD false
    maxRowToFetchM := 100
    GetView := none }

/-- The method `canFetchMoreRows`.  The result is `none` when the call dereferences
the null statement handle. -/
def canFetchMoreRows (t : DataGridTable) : Option Bool :=
  if t.allRowsFetchedM then some false
  else match t.statementM with
    | none => none
    | some st =>
      if st.isSelect = false then some false
      else match st.transaction with
        | none => some false
        | some started => some started

/-- The method `isValidCellPos`. -/
def isValidCellPos (t : DataGridTable) (row col : Int) : Bool :=
  decide (row ≥ 0) && decide (col ≥ 0) && decide (row < castInt t.rowsM.getRowCount)
    && decide (col < castInt t.rowsM.getRowFieldCount)

/-- The method `needsMoreRowsFetched`. -/
def needsMoreRowsFetched (t : DataGridTable) : Bool :=
  if t.allRowsFetchedM then false
  else t.fetchAllRowsM || decide (t.rowsM.getRowCount < t.maxRowToFetchM)

/-- The method `setFetchAllRecords`. -/
def setFetchAllRecords (t : DataGridTable) (fetchall : Bool) : DataGridTable :=
  { t with fetchAllRowsM := fetchall }

/-- The method `getCellValue`. -/
def getCellValue (t : DataGridTable) (row col : Int) : wxString :=
  if !t.isValidCellPos row col then []
  else if t.rowsM.isFieldNull row col then "[null]".toList
  else t.rowsM.getFieldValue row col

/-- The method `getCellValueForInsert`. -/
def getCellValueForInsert (t : DataGridTable) (row col : Int) : wxString :=
  if !t.isValidCellPos row col then []
  else if t.rowsM.isFieldNull row col then "NULL".toList
  else
    let s := Replace (t.rowsM.getFieldValue row col) [APOS] [APOS, APOS]
    [APOS] ++ s ++ [APOS]

/-- The method `getCellValueForCSV`. -/
def getCellValueForCSV (t : DataGridTable) (row col : Int) : wxString :=
  if !t.isValidCellPos row col then []
  else if t.rowsM.isFieldNull row col then [DQUOTE] ++ "NULL".toList ++ [DQUOTE]
  else
    let s := t.rowsM.getFieldValue row col
    if t.rowsM.isRowFieldNumeric col then s
    else [DQUOTE] ++ Replace s [DQUOTE] [DQUOTE, DQUOTE] ++ [DQUOTE]

/-- The method `GetValue`: the display string, together with the state it leaves
(the call may raise the row-count target). -/
def GetValue (t : DataGridTable) (row col : Int) : wxString × DataGridTable :=
  if !t.isValidCellPos row col then ([], t)
  else
    let maxRowToFetch : Nat := (50 * (row / 50 + 5)).toNat % 4294967296
    let t1 := if t.maxRowToFetchM < maxRowToFetch then { t with maxRowToFetchM := maxRowToFetch }
      else t
    if t1.rowsM.isFieldNull row col then ("[null]".toList, t1)
    else
      let cellValue := t1.rowsM.getFieldValue row col
      let nl := Find cellValue [LF]
      if nl ≠ wxNOT_FOUND then (Trim (Truncate cellValue nl.toNat) ++ " [...]".toList, t1)
      else (cellValue, t1)

/-- The method `Clear`.  `configFetchAll` is what the configuration holds under
`GridFetchAllRecords`. -/
def Clear (t : DataGridTable) (configFetchAll : Option Bool) : DataGridTable × List Effect :=
  let oldCols := t.rowsM.getRowFieldCount
  let oldRows := t.rowsM.getRowCount
  let t1 := { t with
    allRowsFetchedM := true
    fetchAllRowsM := configFetchAll.getD false
    rowsM := t.rowsM.clear }
  let rowMsg := if t.GetView.isSome && decide (oldRows > 0) then
      [Effect.tableMessage .ROWS_DELETED 0 oldRows] else []
  let colMsg := if t.GetView.isSome && decide (oldCols > 0) then
      [Effect.tableMessage .COLS_DELETED 0 oldCols] else []
  (t1, rowMsg ++ colMsg)

/-- What the loop of `fetch` leaves behind. -/
structure FetchRun where
  rowsM : DataGridRows
  /-- The part of the cursor that the loop has not used. -/
  cursor : List FetchOutcome
  allRowsFetchedM : Bool
  /-- The message boxes shown by the two `catch` blocks. -/
  effects : List Effect
  /-- The outcomes of the `Fetch()` calls the loop has made, in order. -/
  fetchCalls : List FetchOutcome
  deriving DecidableEq, Repr

/-- The `do ... while` loop of `fetch`.  `clock 0` is the reading `startms`, and
`clock (i + 1)` the reading of `wxGetLocalTimeMillis` in round `i` of the loop. -/
def fetchLoop (initial fetchAllRowsM : Bool) (maxRowToFetchM : Nat) (clock : Nat → Int) :
    List FetchOutcome → Nat → DataGridRows → FetchRun
  | [], _, rows => ⟨rows, [], true, [], [.noMoreRows]⟩
  | .noMoreRows :: rest, _, rows => ⟨rows, rest, true, [], [.noMoreRows]⟩
  | .ibppException e :: rest, _, rows =>
    ⟨rows, rest, true, [.messageBox e "An IBPP error occurred.".toList], [.ibppException e]⟩
  | .otherException :: rest, _, rows =>
    ⟨rows, rest, true, [.messageBox "A system error occurred!".toList "Error".toList],
      [.otherException]⟩
  | .row fields :: rest, i, rows =>
    let rows1 := rows.addRow fields
    if !initial && decide (clock (i + 1) - clock 0 > 100) then
      ⟨rows1, rest, false, [], [.row fields]⟩
    else if (fetchAllRowsM && !initial) || decide (rows1.getRowCount < maxRowToFetchM) then
      let run := fetchLoop initial fetchAllRowsM maxRowToFetchM clock rest (i + 1) rows1
      { run with fetchCalls := .row fields :: run.fetchCalls }
    else ⟨rows1, rest, false, [], [.row fields]⟩

/-- What a call of `fetch` leaves behind. -/
structure FetchResult where
  table : DataGridTable
  effects : List Effect
  /-- The outcomes of the `Fetch()` calls made during the call, in order. -/
  fetchCalls : List FetchOutcome
  deriving DecidableEq, Repr

/-- The method `fetch`.  The result is `none` when the call dereferences the
null statement handle (in `canFetchMoreRows`). -/
def fetch (t : DataGridTable) (clock : Nat → Int) : Option FetchResult :=
  match t.canFetchMoreRows with
  | none => none
  | some false => some ⟨t, [], []⟩
  | some true =>
    match t.statementM with
    | none => none
    | some st =>
      let oldRows := t.rowsM.getRowCount
      let initial := oldRows == 0
      let run := fetchLoop initial t.fetchAllRowsM t.maxRowToFetchM clock st.cursor 0 t.rowsM
      let t1 := { t with
        statementM := some { st with cursor := run.cursor }
        rowsM := run.rowsM
        allRowsFetchedM := run.allRowsFetchedM }
      let notify := match t.GetView with
        | some id =>
          if run.rowsM.getRowCount > oldRows then
            [Effect.tableMessage .ROWS_APPENDED ((run.rowsM.getRowCount - oldRows : Nat) : Int) (-1),
             Effect.rowCountChanged id run.rowsM.getRowCount]
          else []
        | none => []
      some ⟨t1, run.effects ++ notify, run.fetchCalls⟩

/-- What the call `rowsM.initialize(statementM, databaseM)` does; the class
`DataGridRows` is not among the sources, so the call is a parameter of
`initialFetch`: it leaves some cache behind and returns or raises. -/
inductive InitOutcome
  | returned (rows : DataGridRows)
  | ibppException (errorMessage : wxString) (rows : DataGridRows)
  | otherException (rows : DataGridRows)

/-- The method `initialFetch`. -/
def initialFetch (initRows : Option Statement → DataGridRows → InitOutcome)
    (t : DataGridTable) (configFetchAll : Option Bool) (clock : Nat → Int) :
    Option FetchResult :=
  let (t1, e1) := t.Clear configFetchAll
  let t2 := { t1 with allRowsFetchedM := false, maxRowToFetchM := 100 }
  let (rows, e2) := match initRows t2.statementM t2.rowsM with
    | .returned rows => (rows, [])
    | .ibppException e rows => (rows, [Effect.messageBox e "An IBPP error occurred.".toList])
    | .otherException rows =>
      (rows, [Effect.messageBox "A system error occurred!".toList "Error".toList])
  let t3 := { t2 with rowsM := rows }
  let e3 := if t3.GetView.isSome then
      [Effect.tableMessage .COLS_APPENDED t3.rowsM.getRowFieldCount (-1)] else []
  match t3.fetch clock with
  | none => none
  | some r => some { r with effects := e1 ++ e2 ++ e3 ++ r.effects }

/-- What the call `rowsM.removeRows(pos, numRows, statement)` hands back; the
class `DataGridRows` is not among the sources, so the call is a parameter of
`DeleteRows`. -/
structure RemoveRowsResult where
  /-- The boolean the call returns. -/
  ok : Bool
  /-- The cache after the call. -/
  rowsM : DataGridRows
  /-- The statement text the call has written to its third argument. -/
  statement : wxString

/-- What a call of `DeleteRows` leaves behind. -/
structure DeleteRowsResult where
  /-- The value of the `return` statement that ends the call; `none` when the
  call ends without one. -/
  returned : Option Bool
  table : DataGridTable
  effects : List Effect
  deriving DecidableEq, Repr

/-- The method `DeleteRows`. -/
def DeleteRows (removeRows : DataGridRows → Nat → Nat → RemoveRowsResult)
    (t : DataGridTable) (pos numRows : Nat) : DeleteRowsResult :=
  let r := removeRows t.rowsM pos numRows
  let t1 := { t with rowsM := r.rowsM }
  if !r.ok then ⟨some false, t1, []⟩
  else match t1.GetView with
    | some id =>
      if numRows > 0 then
        ⟨none, t1,
          [Effect.tableMessage .ROWS_DELETED pos numRows,
           Effect.rowCountChanged id t1.rowsM.getRowCount,
           Effect.statementEvent id r.statement]⟩
      else ⟨none, t1, []⟩
    | none => ⟨none, t1, []⟩

/-- The calls, among those embedded here, that can be made on a table between
two calls of `initialFetch`.  `SetView` is the method of the base class by which
a grid attaches or detaches itself, and `statementChanged` stands for the owner
of the statement changing the handle the table refers to. -/
inductive Call
  | fetch (clock : Nat → Int)
  | Clear (configFetchAll : Option Bool)
  | GetValue (row col : Int)
  | setFetchAllRecords (fetchall : Bool)
  | DeleteRows (pos numRows : Nat)
  | SetView (grid : Option Int)
  | statementChanged (s : Option Statement)

/-- The state after one call; `none` when the call dereferences the null
statement handle. -/
def call (removeRows : DataGridRows → Nat → Nat → RemoveRowsResult)
    (t : DataGridTable) : Call → Option DataGridTable
  | .fetch clock => (t.fetch clock).map (fun r => r.table)
  | .Clear cfg => some (t.Clear cfg).1
  | .GetValue row col => some (t.GetValue row col).2
  | .setFetchAllRecords b => some (t.setFetchAllRecords b)
  | .DeleteRows pos numRows => some (t.DeleteRows removeRows pos numRows).table
  | .SetView grid => some { t with GetView := grid }
  | .statementChanged s => some { t with statementM := s }

/-- The state after a sequence of calls. -/
def calls (removeRows : DataGridRows → Nat → Nat → RemoveRowsResult) :
    DataGridTable → List Call → Option DataGridTable
  | t, [] => some t
  | t, c :: cs => (t.call removeRows c).bind (fun t1 => calls removeRows t1 cs)

end DataGridTable

/-! ## Specification-side definitions -/

/-- The text `s` with every occurrence of the character `q` replaced by the
text `new`, as the specification words a replacement of a single character. -/
def substEach (q : Char) (new : wxString) : wxString → wxString
  | [] => []
  | c :: cs => if c = q then new ++ substEach q new cs else c :: substEach q new cs

/-- Un-doubling of the character `q`: of two `q` in a row the second is
dropped; `pending` says that the character before was a `q` that has been kept. -/
def undouble (q : Char) : Bool → wxString → wxString
  | _, [] => []
  | true, c :: cs => if c = q then undouble q false cs else c :: undouble q false cs
  | false, c :: cs => if c = q then c :: undouble q true cs else c :: undouble q false cs

/-- Reading back of a quoted SQL literal: the outer quotes are stripped and
doubled quotes are un-doubled. -/
def unquoteLiteral (lit : wxString) : wxString :=
  undouble APOS false (lit.drop 1).dropLast

/-! ## Example states -/

/-- A result set of two columns (a text column and a numeric one) and three
cached rows: a text with a quote, a NULL, a text of two lines. -/
def exampleRows : DataGridRows :=
  { columnDefsM :=
      [ { name := "NAME".toList, nullable := true, numeric := false, readOnly := false },
        { name := "ID".toList, nullable := false, numeric := true, readOnly := true } ]
    buffersM :=
      [ [some ("it".toList ++ [APOS] ++ "s".toList), some "42".toList],
        [none, some "7".toList],
        [some ("first  ".toList ++ [LF] ++ "second".toList), some "8".toList] ] }

/-- A table that holds `exampleRows`, with a grid attached and nothing left to fetch. -/
def exampleTable : DataGridTable :=
  { statementM := some { isSelect := true, transaction := some true, columns := [], cursor := [] }
    rowsM := exampleRows
    allRowsFetchedM := true
    fetchAllRowsM := false
    maxRowToFetchM := 100
    GetView := some 7 }

/-- The row a `Fetch()` call has delivered, if it returned true. -/
def FetchOutcome.fields? : FetchOutcome → Option (List DataGridField)
  | .row fields => some fields
  | _ => none

/-- Whether a `Fetch()` call has raised. -/
def FetchOutcome.isException : FetchOutcome → Bool
  | .ibppException _ => true
  | .otherException => true
  | _ => false

/-- An empty table on a live cursor that delivers two rows and then raises;
a third row would follow. -/
def failingTable : DataGridTable :=
  { statementM := some
      { isSelect := true
        transaction := some true
        columns := []
        cursor := [.row [some "a".toList], .row [none], .ibppException "lost".toList,
          .row [some "c".toList]] }
    rowsM := { columnDefsM := [], buffersM := [] }
    allRowsFetchedM := false
    fetchAllRowsM := true
    maxRowToFetchM := 100
    GetView := some 7 }

/-- A table whose cache holds as many rows as the row-count target asks for
(one hundred), on a live cursor that can deliver one row more. -/
def fullTable : DataGridTable :=
  { statementM := some
      { isSelect := true
        transaction := some true
        columns := []
        cursor := [.row [some "next".toList]] }
    rowsM := { columnDefsM := [], buffersM := List.replicate 100 [some "x".toList] }
    allRowsFetchedM := false
    fetchAllRowsM := false
    maxRowToFetchM := 100
    GetView := none }

/-- A clock that stands still. -/
def stillClock : Nat → Int := fun _ => 0

/-- A cache operation that removes the rows `pos`, ..., `pos + numRows - 1`,
reports success and hands back a statement text; it fails, and leaves the cache
as it is, when the run is not inside the cache. -/
def exampleRemoveRows (rows : DataGridRows) (pos numRows : Nat) :
    DataGridTable.RemoveRowsResult :=
  if pos + numRows ≤ rows.getRowCount then
    { ok := true
      rowsM := { rows with buffersM := rows.buffersM.take pos ++ rows.buffersM.drop (pos + numRows) }
      statement := "DELETE FROM T WHERE ID = 7".toList }
  else { ok := false, rowsM := rows, statement := [] }

/-! ## Statement-history search dialog (`StatementHistoryDialog.cpp`) -/

/-- Modelled from the spec: the history log `StatementHistory`, which is not
among the sources: an ordered sequence of statement texts, addressed by
position. -/
abbrev StatementHistory := List wxString

/-- Modelled from the spec: `StatementHistory::size`, the number of entries. -/
def StatementHistory.size (h : StatementHistory) : Nat := h.length

/-- Modelled from the spec: `StatementHistory::get`, the text at a position. -/
def StatementHistory.get (h : StatementHistory) (pos : Nat) : wxString := h.getD pos []

/-- An item of the result list box: its label and its client data. -/
structure ListBoxItem where
  label : wxString
  clientData : Nat
  deriving DecidableEq, Repr

/-- The state of a `StatementHistoryDialog`: its two members and the state of
the controls its handlers read or write. -/
structure StatementHistoryDialog where
  historyM : StatementHistory
  isSearchingM : Bool
  /-- The value of `textctrl_search`. -/
  textctrl_search : wxString
  /-- The items of `listbox_search`. -/
  listbox_search : List ListBoxItem
  /-- The selected indices of `listbox_search`. -/
  listbox_selections : List Nat
  /-- Whether `button_delete` is enabled. -/
  button_delete : Bool
  /-- Whether `button_copy` is enabled. -/
  button_copy : Bool
  /-- The label of `button_search`. -/
  button_search : wxString
  /-- The range of `gauge_progress`. -/
  gauge_range : Int
  /-- The value of `gauge_progress`. -/
  gauge_progress : Int
  deriving DecidableEq, Repr

namespace StatementHistoryDialog

/-- The constructor, as far as it sets the state above. -/
def new (history : StatementHistory) : StatementHistoryDialog :=
  { historyM := history
    isSearchingM := false
    textctrl_search := []
    listbox_search := []
    listbox_selections := []
    button_delete := false
    button_copy := false
    button_search := "&Search".toList
    gauge_range := 100
    gauge_progress := 0 }

/-- The method `setSearching`. -/
def setSearching (d : StatementHistoryDialog) (searching : Bool) : StatementHistoryDialog :=
  if searching then
    { d with
      isSearchingM := searching
      button_delete := false
      button_copy := false
      button_search := "&Stop".toList }
  else { d with isSearchingM := searching, button_search := "&Search".toList }

/-- The handler `OnListBoxSelect`. -/
def OnListBoxSelect (d : StatementHistoryDialog) : StatementHistoryDialog :=
  let hasSelection := decide (d.listbox_selections.length > 0)
  { d with button_copy := hasSelection, button_delete := hasSelection }

/-- The label the search loop gives to the list entry of the statement `s`
(the statements that compute `entry`). -/
def searchEntry (s : wxString) : wxString :=
  let entry := if s.length > 200 then Mid s 0 200 ++ "...".toList else s
  let entry := Replace entry [LF] " ".toList
  Replace entry [CR] []

/-- The statements of `OnButtonSearchClick` that follow its loop. -/
def searchDone (d : StatementHistoryDialog) : StatementHistoryDialog :=
  { d.setSearching false with gauge_progress := 0 }

/-- The `for` loop of `OnButtonSearchClick`.  The counter is `n = p + 1`, so
that `n = 0` stands for the position `p` that has wrapped below zero, whose
conversion `(int)p` is `-1`.  The call of `wxYield` made at position `p` runs
whatever handlers the event loop has pending; it is the parameter `wxYield p`. -/
def searchLoop (towupper : Char → Char)
    (wxYield : Nat → StatementHistoryDialog → StatementHistoryDialog)
    (searchString : wxString) (total : Nat) :
    Nat → StatementHistoryDialog → StatementHistoryDialog
  | 0, d => d.searchDone
  | p + 1, d =>
    if castInt p ≥ 0 then
      let d1 := wxYield p d
      if !d1.isSearchingM then { d1 with gauge_progress := 0 }
      else
        let d2 := { d1 with gauge_progress := castInt ((total : Int) - p - 1) }
        let s := d2.historyM.get p
        let d3 :=
          if searchString.isEmpty || Contains (Upper towupper s) searchString then
            { d2 with listbox_search := d2.listbox_search ++ [⟨searchEntry s, p⟩] }
          else d2
        searchLoop towupper wxYield searchString total p d3
    else d.searchDone

/-- The handler `OnButtonSearchClick`. -/
def OnButtonSearchClick (towupper : Char → Char)
    (wxYield : Nat → StatementHistoryDialog → StatementHistoryDialog)
    (d : StatementHistoryDialog) : StatementHistoryDialog :=
  if d.isSearchingM then d.setSearching false
  else
    let d1 := { d with listbox_search := [], listbox_selections := [] }
    let searchString := Upper towupper d1.textctrl_search
    let d2 := d1.setSearching true
    let total := d2.historyM.size
    let d3 := { d2 with gauge_range := castInt total }
    searchLoop towupper wxYield searchString total total d3

end StatementHistoryDialog

/-- A `wxYield` during which no handler runs. -/
def idleYield : Nat → StatementHistoryDialog → StatementHistoryDialog := fun _ d => d

/-- A dialog on a history of three statements, with `sel` typed into the search field. -/
def exampleDialog : StatementHistoryDialog :=
  { StatementHistoryDialog.new
      ["select 1".toList, "update t".toList, ("Select a".toList ++ [CR, LF] ++ "from t".toList)]
    with textctrl_search := "sel".toList }

/-- A dialog on a history of `2^31 + 1` statements, each of them `A`, with `A`
typed into the search field. -/
def hugeDialog : StatementHistoryDialog :=
  { StatementHistoryDialog.new (List.replicate 2147483649 "A".toList)
    with textctrl_search := "A".toList }

/-- The history positions whose text the search has to list, from the highest
to the lowest, as the specification words it: the upper-cased text contains the
upper-cased search text, or the search text is empty. -/
def matchingPositions (towupper : Char → Char) (history : StatementHistory) (text : wxString) : List Nat :=
  (List.range history.length).reverse.filter
    (fun p => decide (text = [] ∨ Upper towupper text <:+: Upper towupper (history.get p)))

/-- The preview of a statement text as the specification words it: the text cut
to 200 characters plus `...` if it is longer, then every line feed replaced by
one space and every carriage return removed. -/
def preview (s : wxString) : wxString :=
  substEach CR [] (substEach LF [Char.ofNat 32]
    (if s.length ≤ 200 then s else s.take 200 ++ [Char.ofNat 46, Char.ofNat 46, Char.ofNat 46]))

/-- A table of one text column and two cached rows: a NULL field, and a field
whose text is the four characters `NULL`. -/
def nullTextTable : DataGridTable :=
  { statementM := none
    rowsM :=
      { columnDefsM :=
          [ { name := "NAME".toList, nullable := true, numeric := false, readOnly := false } ]
        buffersM := [[none], [some "NULL".toList]] }
    allRowsFetchedM := true
    fetchAllRowsM := false
    maxRowToFetchM := 100
    GetView := none }

/-- A table as the constructor leaves it when it is given a null statement handle. -/
def nullHandleTable : DataGridTable := DataGridTable.new none none

/-- The states a table can be in: the state the constructor leaves, and every
state reached from such a state by `initialFetch` or by one of the calls of
`DataGridTable.Call`, whatever the cache operations, the configuration, the
clock and the cursor do. -/
inductive DataGridTable.Reachable : DataGridTable → Prop
  | new (s : Option Statement) (configFetchAll : Option Bool) :
      DataGridTable.Reachable (DataGridTable.new s configFetchAll)
  | call (removeRows : DataGridRows → Nat → Nat → DataGridTable.RemoveRowsResult)
      (t t1 : DataGridTable) (c : DataGridTable.Call) :
      DataGridTable.Reachable t → t.call removeRows c = some t1 → DataGridTable.Reachable t1
  | initialFetch (initRows : Option Statement → DataGridRows → DataGridTable.InitOutcome)
      (t : DataGridTable) (configFetchAll : Option Bool) (clock : Nat → Int)
      (r : DataGridTable.FetchResult) :
      DataGridTable.Reachable t → t.initialFetch initRows configFetchAll clock = some r →
      DataGridTable.Reachable r.table

/-- The number of rows a cursor can still deliver: the rows that come before
its first outcome that is not a row. -/
def deliverable (cursor : List FetchOutcome) : Nat :=
  (cursor.takeWhile (fun o => o.fields?.isSome)).length

/-- A live SELECT statement whose cursor delivers two rows and is then exhausted. -/
def freshStatement : Statement :=
  { isSelect := true
    transaction := some true
    columns := []
    cursor := [.row [some "a".toList], .row [none], .noMoreRows] }

/-- A table as the constructor leaves it on `freshStatement`, with the
configuration asking for all records. -/
def freshTable : DataGridTable := DataGridTable.new (some freshStatement) (some true)

/-- A clock that jumps by one second at every reading. -/
def slowClock : Nat → Int := fun i => 1000 * i

/-! ## Statement-history dialog: handlers between the yields of a search -/

/-- Worker of `deleteItems`: `i` is the position of the head of the remaining log. -/
def StatementHistory.deleteFrom (items : List Nat) : Nat → StatementHistory → StatementHistory
  | _, [] => []
  | i, s :: rest =>
    if i ∈ items then StatementHistory.deleteFrom items (i + 1) rest
    else s :: StatementHistory.deleteFrom items (i + 1) rest

/-- Modelled from the spec: `StatementHistory::deleteItems`, the point deletion
by a set of positions; the class is not among the sources. -/
def StatementHistory.deleteItems (h : StatementHistory) (items : List Nat) : StatementHistory :=
  StatementHistory.deleteFrom items 0 h

namespace StatementHistoryDialog

/-- The call `listbox_search->Delete(n)` of the toolkit: item `n` goes, and the
selection follows the items that stay. -/
def listboxDelete (d : StatementHistoryDialog) (n : Nat) : StatementHistoryDialog :=
  { d with
    listbox_search := d.listbox_search.eraseIdx n
    listbox_selections :=
      (d.listbox_selections.filter (fun j => decide (j ≠ n))).map
        (fun j => if j > n then j - 1 else j) }

/-- The second loop of `OnButtonDeleteClick`; the counter is `i + 1`, so that
`0` stands for the index that has wrapped below zero. -/
def deleteLoop (temp : List Nat) : Nat → StatementHistoryDialog → StatementHistoryDialog
  | 0, d => d
  | i + 1, d =>
    if castInt i ≥ 0 then deleteLoop temp i (d.listboxDelete (temp.getD i 0)) else d

/-- The handler `OnButtonDeleteClick` (the message box it shows when nothing is
selected leaves the state as it is). -/
def OnButtonDeleteClick (d : StatementHistoryDialog) : StatementHistoryDialog :=
  let temp := d.listbox_selections
  if temp.length = 0 then d
  else
    let vect := temp.map (fun i => ((d.listbox_search.get? i).map (fun x => x.clientData)).getD 0)
    let d1 := { d with historyM := d.historyM.deleteItems vect }
    deleteLoop temp temp.length d1

/-- A call of `OnButtonSearchClick` that waits in `wxYield`: its search text,
its `total` and the position `p` at which it has yielded. -/
structure SearchFrame where
  searchString : wxString
  total : Nat
  p : Nat
  deriving DecidableEq, Repr

/-- The dialog while events are handled: the state of the dialog and the calls
of `OnButtonSearchClick` that wait in `wxYield`, the innermost first. -/
structure DialogRun where
  dialog : StatementHistoryDialog
  pending : List SearchFrame
  deriving DecidableEq, Repr

/-- The head of the `for` loop of `OnButtonSearchClick` with counter `n = p + 1`:
the loop ends, or it calls `wxYield` and waits there. -/
def loopHead (searchString : wxString) (total : Nat) :
    Nat → StatementHistoryDialog → List SearchFrame → DialogRun
  | 0, d, pending => ⟨d.searchDone, pending⟩
  | p + 1, d, pending =>
    if castInt p ≥ 0 then ⟨d, ⟨searchString, total, p⟩ :: pending⟩
    else ⟨d.searchDone, pending⟩

/-- The loop of `OnButtonSearchClick` from the return of `wxYield` at position
`f.p` to its next call of `wxYield`, or to the end of the handler. -/
def afterYield (towupper : Char → Char) (f : SearchFrame) (d1 : StatementHistoryDialog) (pending : List SearchFrame) :
    DialogRun :=
  if !d1.isSearchingM then ⟨{ d1 with gauge_progress := 0 }, pending⟩
  else
    let d2 := { d1 with gauge_progress := castInt ((f.total : Int) - f.p - 1) }
    let s := d2.historyM.get f.p
    let d3 :=
      if f.searchString.isEmpty || Contains (Upper towupper s) f.searchString then
        { d2 with listbox_search := d2.listbox_search ++ [⟨searchEntry s, f.p⟩] }
      else d2
    loopHead f.searchString f.total f.p d3 pending

/-- The handler `OnButtonSearchClick` from its start to its first call of
`wxYield`, or to its end. -/
def beginSearchClick (towupper : Char → Char) (d : StatementHistoryDialog) (pending : List SearchFrame) : DialogRun :=
  if d.isSearchingM then ⟨d.setSearching false, pending⟩
  else
    let d1 := { d with listbox_search := [], listbox_selections := [] }
    let searchString := Upper towupper d1.textctrl_search
    let d2 := d1.setSearching true
    let total := d2.historyM.size
    let d3 := { d2 with gauge_range := castInt total }
    loopHead searchString total total d3 pending

/-- What the event loop can do next, at top level or inside a `wxYield`. -/
inductive DialogEvent
  /-- The Search button is clicked: `OnButtonSearchClick` runs to its first yield. -/
  | searchClick
  /-- The user changes the selection of the list box (to items it has):
  `OnListBoxSelect` runs. -/
  | listBoxSelect (selections : List Nat)
  /-- The handler `OnButtonDeleteClick` runs. -/
  | deleteClick
  /-- The method `setSearching` runs. -/
  | setSearching (searching : Bool)
  /-- The user edits the search field. -/
  | editSearchText (text : wxString)
  /-- The innermost waiting `wxYield` returns, and its loop runs on to its next
  yield or to its end. -/
  | yieldReturns
  deriving DecidableEq, Repr

/-- The effect of one event. -/
def step (towupper : Char → Char) (c : DialogRun) : DialogEvent → DialogRun
  | .searchClick => beginSearchClick towupper c.dialog c.pending
  | .listBoxSelect selections =>
    ⟨OnListBoxSelect { c.dialog with
        listbox_selections :=
          selections.filter (fun j => decide (j < c.dialog.listbox_search.length)) },
      c.pending⟩
  | .deleteClick => ⟨c.dialog.OnButtonDeleteClick, c.pending⟩
  | .setSearching searching => ⟨c.dialog.setSearching searching, c.pending⟩
  | .editSearchText text => ⟨{ c.dialog with textctrl_search := text }, c.pending⟩
  | .yieldReturns =>
    match c.pending with
    | [] => c
    | f :: rest => afterYield towupper f c.dialog rest

/-- The effect of a sequence of events. -/
def run (towupper : Char → Char) : DialogRun → List DialogEvent → DialogRun
  | c, [] => c
  | c, e :: es => run towupper (step towupper c e) es

/-- The dialog right after its constructor. -/
def start (history : StatementHistory) : DialogRun := ⟨new history, []⟩

/-- Whether no list selection is handled while the searching flag is set, in
the run of the events `es` from `c`. -/
def noSelectWhileSearching (towupper : Char → Char) :
    DialogRun → List DialogEvent → Bool
  | _, [] => true
  | c, e :: es =>
    (match e with
      | .listBoxSelect _ => !c.dialog.isSearchingM
      | _ => true)
    && noSelectWhileSearching towupper (step towupper c e) es

end StatementHistoryDialog

/-- A history of two statements. -/
def twoStatements : StatementHistory := ["select 1".toList, "select 2".toList]

/-- A search is started on `twoStatements`, its first yield returns and lists
the second statement, and during the second yield the user selects that entry. -/
def selectWhileSearching : List StatementHistoryDialog.DialogEvent :=
  [.searchClick, .yieldReturns, .listBoxSelect [0]]

/-- The property that the buttons Delete Selected and Copy Selection are
disabled if the searching flag is set. -/
def buttonsOffWhileSearching (d : StatementHistoryDialog) : Prop :=
  d.isSearchingM = true → d.button_delete = false ∧ d.button_copy = false

/-- A history of three statements. -/
def threeStatements : StatementHistory := ["aaa".toList, "bbb".toList, "ccc".toList]

/-- A `wxYield` in which, at position 0 only, the user selects the second entry
of the result list and clicks Delete Selected, so that `OnListBoxSelect` and
`OnButtonDeleteClick` run; at every other position no handler runs.  The
Search button is not clicked in it. -/
def deleteDuringYield : Nat → StatementHistoryDialog → StatementHistoryDialog :=
  fun p d =>
    if p = 0 then
      (StatementHistoryDialog.OnListBoxSelect { d with listbox_selections := [1] }).OnButtonDeleteClick
    else d

/-- An upper-casing as a locale with accented letters has it: `é` (code 233)
goes to `É` (code 201), every other character as in the C locale. -/
def accentUpper : Char → Char :=
  fun c => if c.toNat = 233 then Char.ofNat 201 else c.toUpper

/-- A dialog on a history whose only statement is `SELECT É`, with `é` typed
into the search field. -/
def accentDialog : StatementHistoryDialog :=
  { StatementHistoryDialog.new ["SELECT ".toList ++ [Char.ofNat 201]]
    with textctrl_search := [Char.ofNat 233] }

/-! ## Theorems -/

/-! ### Toolkit strings -/

theorem replaceScan_single (q : Char) (new s : wxString) :
    replaceScan [q] new 0 s = substEach q new s := by
  induction s with
  | nil => rfl
  | cons c cs ih =>
    by_cases h : c = q
    · subst h
      simp [replaceScan, substEach, List.isPrefixOf, ih]
    · have h2 : ¬ q = c := fun e => h e.symm
      simp [replaceScan, substEach, List.isPrefixOf, ih, h, h2]

theorem Replace_single (q : Char) (new s : wxString) :
    Replace s [q] new = substEach q new s := by
  simp [Replace, replaceScan_single]

theorem undouble_substEach (q : Char) (s : wxString) :
    undouble q false (substEach q [q, q] s) = s := by
  induction s with
  | nil => rfl
  | cons c cs ih =>
    by_cases h : c = q
    · subst h
      simp [substEach, undouble, ih]
    · simp [substEach, undouble, ih, h]

theorem not_mem_substEach (q x : Char) (new s : wxString) (hq : x ∉ new)
    (hs : x ∉ s ∨ x = q) : x ∉ substEach q new s := by
  induction s with
  | nil => simp [substEach]
  | cons c cs ih =>
    have hcs : x ∉ cs ∨ x = q := by
      rcases hs with h | h
      · exact Or.inl (fun hm => h (List.mem_cons_of_mem _ hm))
      · exact Or.inr h
    by_cases h : c = q
    · simp [substEach, h, hq, ih hcs]
    · have hxc : x ≠ c := by
        rcases hs with h1 | h1
        · exact fun e => h1 (e ▸ List.mem_cons_self _ _)
        · exact fun e => h (e ▸ h1)
      simp [substEach, h, ih hcs, hxc]

theorem substEach_of_not_mem (q : Char) (new s : wxString) (h : q ∉ s) :
    substEach q new s = s := by
  induction s with
  | nil => rfl
  | cons c cs ih =>
    have hc : c ≠ q := fun e => h (e ▸ List.mem_cons_self _ _)
    have hcs : q ∉ cs := fun hm => h (List.mem_cons_of_mem _ hm)
    simp [substEach, hc, ih hcs]

theorem length_substEach_le (q : Char) (new s : wxString) (hn : new.length ≤ 1) :
    (substEach q new s).length ≤ s.length := by
  induction s with
  | nil => simp [substEach]
  | cons c cs ih =>
    by_cases h : c = q
    · simp [substEach, h]; omega
    · simp [substEach, h]; omega

theorem findFrom_single (q : Char) (s : wxString) (i : Nat) :
    findFrom [q] s i =
      if q ∈ s then ((i + (s.takeWhile (fun c => decide (c ≠ q))).length : Nat) : Int)
      else wxNOT_FOUND := by
  induction s generalizing i with
  | nil => simp [findFrom]
  | cons c cs ih =>
    by_cases h : c = q
    · subst h
      simp [findFrom, List.isPrefixOf, List.takeWhile]
    · have h2 : ¬ q = c := fun e => h e.symm
      simp [findFrom, List.isPrefixOf, List.takeWhile, h, h2, ih]
      split
      · omega
      · rfl

theorem Find_single_of_not_mem (q : Char) (s : wxString) (h : q ∉ s) :
    Find s [q] = wxNOT_FOUND := by
  simp [Find, findFrom_single, h]

theorem Find_single_of_mem (q : Char) (s : wxString) (h : q ∈ s) :
    Find s [q] = ((s.takeWhile (fun c => decide (c ≠ q))).length : Nat) := by
  simp [Find, findFrom_single, h]

theorem take_length_takeWhile (p : Char → Bool) (s : wxString) :
    s.take (s.takeWhile p).length = s.takeWhile p := by
  induction s with
  | nil => rfl
  | cons c cs ih =>
    by_cases h : p c = true
    · simp [List.takeWhile, h, ih]
    · simp [List.takeWhile, h]

theorem not_mem_takeWhile_ne (q : Char) (s : wxString) :
    q ∉ s.takeWhile (fun c => decide (c ≠ q)) := by
  intro hm
  have := List.mem_takeWhile_imp hm
  simp at this

theorem not_mem_Trim (x : Char) (s : wxString) (h : x ∉ s) : x ∉ Trim s := by
  intro hm
  apply h
  unfold Trim at hm
  rw [List.mem_reverse] at hm
  have := (List.dropWhile_suffix wxIsspace).subset hm
  simpa using this

theorem castInt_le (n : Nat) : castInt n ≤ n := by
  unfold castInt
  split <;> omega

theorem castInt_lt (x : Int) : castInt x < 2147483648 := by
  unfold castInt
  split <;> omega


/-- C1: for every metadata kind and every prior content of the title list, the
title list after the dispatch is exactly the fixed ordered section list of the
kind (the empty list for a kind the visitor does not handle). -/
theorem C1_titles_after_dispatch (k : MetadataKind) (titlesM : List Title) :
    acceptVisitor k titlesM = sectionsOf k := by
  cases k <;> rfl

/-! ### Cell renderings -/

theorem NULL_head : ∃ rest, "NULL".toList = Char.ofNat 78 :: rest := ⟨_, rfl⟩

theorem APOS_ne_N : APOS ≠ Char.ofNat 78 := by decide

theorem insert_of_valid (t : DataGridTable) (row col : Int)
    (hv : t.isValidCellPos row col = true) :
    t.getCellValueForInsert row col =
      if t.rowsM.isFieldNull row col then "NULL".toList
      else [APOS] ++ substEach APOS [APOS, APOS] (t.rowsM.getFieldValue row col) ++ [APOS] := by
  simp [DataGridTable.getCellValueForInsert, hv, Replace_single]

theorem unquoteLiteral_quoted (s : wxString) :
    unquoteLiteral ([APOS] ++ substEach APOS [APOS, APOS] s ++ [APOS]) = s := by
  simp [unquoteLiteral, List.dropLast_concat, undouble_substEach]

theorem quoted_ne_NULL (s : wxString) : [APOS] ++ s ++ [APOS] ≠ "NULL".toList := by
  obtain ⟨rest, hr⟩ := NULL_head
  rw [hr]
  intro h
  simp at h
  exact APOS_ne_N h.1

/-- C2: on a valid cell position `getCellValueForInsert` returns the keyword
NULL for a NULL field and otherwise the field text with every single quote
doubled, between two single quotes.  Stripping the outer quotes and un-doubling
recovers the text, no non-null field renders as the bare keyword NULL, and two
valid cells with the same rendering are both NULL or both non-null with the
same text. -/
theorem C2_getCellValueForInsert (t : DataGridTable) (row col : Int)
    (hv : t.isValidCellPos row col = true) :
    (t.getCellValueForInsert row col =
        if t.rowsM.isFieldNull row col then "NULL".toList
        else [APOS] ++ substEach APOS [APOS, APOS] (t.rowsM.getFieldValue row col) ++ [APOS])
    ∧ (t.rowsM.isFieldNull row col = false →
        unquoteLiteral (t.getCellValueForInsert row col) = t.rowsM.getFieldValue row col
        ∧ t.getCellValueForInsert row col ≠ "NULL".toList)
    ∧ (∀ (t2 : DataGridTable) (row2 col2 : Int), t2.isValidCellPos row2 col2 = true →
        t.getCellValueForInsert row col = t2.getCellValueForInsert row2 col2 →
        t.rowsM.isFieldNull row col = t2.rowsM.isFieldNull row2 col2
        ∧ (t.rowsM.isFieldNull row col = false →
            t.rowsM.getFieldValue row col = t2.rowsM.getFieldValue row2 col2)) := by
  refine ⟨insert_of_valid t row col hv, ?_, ?_⟩
  · intro hn
    rw [insert_of_valid t row col hv]
    simp only [hn, Bool.false_eq_true, if_false]
    exact ⟨unquoteLiteral_quoted _, quoted_ne_NULL _⟩
  · intro t2 row2 col2 hv2 heq
    rw [insert_of_valid t row col hv, insert_of_valid t2 row2 col2 hv2] at heq
    cases h1 : t.rowsM.isFieldNull row col <;> cases h2 : t2.rowsM.isFieldNull row2 col2
    · simp only [h1, h2, Bool.false_eq_true, if_false] at heq
      refine ⟨rfl, fun _ => ?_⟩
      have := congrArg unquoteLiteral heq
      rwa [unquoteLiteral_quoted, unquoteLiteral_quoted] at this
    · simp only [h1, h2, Bool.false_eq_true, if_false, if_true] at heq
      exact absurd heq (quoted_ne_NULL _)
    · simp only [h1, h2, Bool.false_eq_true, if_false, if_true] at heq
      exact absurd heq.symm (quoted_ne_NULL _)
    · exact ⟨rfl, fun h => absurd h (by simp)⟩

/-- C2 at the first cell of `exampleTable`, whose text holds one single quote. -/
theorem C2_getCellValueForInsert_witness :
    exampleTable.isValidCellPos 0 0 = true
    ∧ exampleTable.getCellValueForInsert 0 0
        = [APOS] ++ "it".toList ++ [APOS, APOS] ++ "s".toList ++ [APOS] :=
  ⟨by decide, (C2_getCellValueForInsert exampleTable 0 0 (by decide)).1.trans (by decide)⟩

theorem isValidCellPos_false_of_outside (t : DataGridTable) (row col : Int)
    (h : row < 0 ∨ col < 0 ∨ row ≥ (t.rowsM.getRowCount : Int)
      ∨ col ≥ (t.rowsM.getRowFieldCount : Int)) :
    t.isValidCellPos row col = false := by
  have h1 := castInt_le t.rowsM.getRowCount
  have h2 := castInt_le t.rowsM.getRowFieldCount
  simp only [DataGridTable.isValidCellPos, Bool.and_eq_false_iff, decide_eq_false_iff_not]
  rcases h with h | h | h | h
  · exact Or.inl (Or.inl (Or.inl (by omega)))
  · exact Or.inl (Or.inl (Or.inr (by omega)))
  · exact Or.inl (Or.inr (by omega))
  · exact Or.inr (by omega)

/-- C3: on a valid, non-null cell `getCellValueForCSV` returns the field text
unchanged when the column is numeric, and otherwise the text with every double
quote doubled, between two double quotes; for a position outside the cache
(negative row or column, row not below the row count, column not below the
field count), and for any position that `isValidCellPos` rejects, it returns
the empty string. -/
theorem C3_getCellValueForCSV (t : DataGridTable) (row col : Int) :
    (t.isValidCellPos row col = true → t.rowsM.isFieldNull row col = false →
        t.getCellValueForCSV row col =
          if t.rowsM.isRowFieldNumeric col then t.rowsM.getFieldValue row col
          else [DQUOTE] ++ substEach DQUOTE [DQUOTE, DQUOTE] (t.rowsM.getFieldValue row col)
            ++ [DQUOTE])
    ∧ ((row < 0 ∨ col < 0 ∨ row ≥ (t.rowsM.getRowCount : Int)
          ∨ col ≥ (t.rowsM.getRowFieldCount : Int)) →
        t.getCellValueForCSV row col = [])
    ∧ (t.isValidCellPos row col = false → t.getCellValueForCSV row col = []) := by
  refine ⟨?_, ?_, ?_⟩
  · intro hv hn
    simp [DataGridTable.getCellValueForCSV, hv, hn, Replace_single]
  · intro h
    simp [DataGridTable.getCellValueForCSV, isValidCellPos_false_of_outside t row col h]
  · intro h
    simp [DataGridTable.getCellValueForCSV, h]

/-- C3 at `exampleTable`: a numeric cell, and a position below the last row. -/
theorem C3_getCellValueForCSV_witness :
    exampleTable.getCellValueForCSV 0 1 = "42".toList
    ∧ exampleTable.getCellValueForCSV 3 0 = [] :=
  ⟨((C3_getCellValueForCSV exampleTable 0 1).1 (by decide) (by decide)).trans (by decide),
   (C3_getCellValueForCSV exampleTable 3 0).2.1 (by decide)⟩

theorem GetValue_fst (t : DataGridTable) (row col : Int)
    (hv : t.isValidCellPos row col = true) :
    (t.GetValue row col).1 =
      if t.rowsM.isFieldNull row col then "[null]".toList
      else if Find (t.rowsM.getFieldValue row col) [LF] ≠ wxNOT_FOUND then
        Trim (Truncate (t.rowsM.getFieldValue row col)
          (Find (t.rowsM.getFieldValue row col) [LF]).toNat) ++ " [...]".toList
      else t.rowsM.getFieldValue row col := by
  unfold DataGridTable.GetValue
  simp only [hv, Bool.not_true, Bool.false_eq_true, if_false]
  split <;> (split <;> [rfl; (split <;> rfl)])

theorem LF_not_mem_null_marker : LF ∉ "[null]".toList := by decide

theorem LF_not_mem_more_marker : LF ∉ " [...]".toList := by decide

/-- C4: on a valid cell `GetValue` returns the marker `[null]` for a NULL
field, the field text unchanged when it is non-null and has no line feed, and
otherwise the text before the first line feed, without trailing white space,
followed by ` [...]`; in every case the display string has no line feed. -/
theorem C4_GetValue (t : DataGridTable) (row col : Int)
    (hv : t.isValidCellPos row col = true) :
    (t.rowsM.isFieldNull row col = true → (t.GetValue row col).1 = "[null]".toList)
    ∧ (t.rowsM.isFieldNull row col = false → LF ∉ t.rowsM.getFieldValue row col →
        (t.GetValue row col).1 = t.rowsM.getFieldValue row col)
    ∧ (t.rowsM.isFieldNull row col = false → LF ∈ t.rowsM.getFieldValue row col →
        (t.GetValue row col).1 =
          Trim ((t.rowsM.getFieldValue row col).takeWhile (fun c => decide (c ≠ LF)))
            ++ " [...]".toList)
    ∧ LF ∉ (t.GetValue row col).1 := by
  have key := GetValue_fst t row col hv
  cases hn : t.rowsM.isFieldNull row col
  · by_cases hm : LF ∈ t.rowsM.getFieldValue row col
    · have hf := Find_single_of_mem LF _ hm
      have hne : Find (t.rowsM.getFieldValue row col) [LF] ≠ wxNOT_FOUND := by
        rw [hf]; unfold wxNOT_FOUND; omega
      have hres : (t.GetValue row col).1 =
          Trim ((t.rowsM.getFieldValue row col).takeWhile (fun c => decide (c ≠ LF)))
            ++ " [...]".toList := by
        rw [key]
        simp only [hn, Bool.false_eq_true, if_false, hne, ne_eq, not_false_eq_true, if_true]
        rw [hf, Int.toNat_ofNat, Truncate, take_length_takeWhile]
      refine ⟨fun h => absurd h (by simp), fun _ h => absurd hm h, fun _ _ => hres, ?_⟩
      rw [hres, List.mem_append, not_or]
      exact ⟨not_mem_Trim _ _ (not_mem_takeWhile_ne LF _), LF_not_mem_more_marker⟩
    · have hf := Find_single_of_not_mem LF _ hm
      have hres : (t.GetValue row col).1 = t.rowsM.getFieldValue row col := by
        rw [key]
        simp [hn, hf]
      refine ⟨fun h => absurd h (by simp), fun _ _ => hres, fun _ h => absurd h hm, ?_⟩
      rw [hres]; exact hm
  · have hres : (t.GetValue row col).1 = "[null]".toList := by
      rw [key]; simp [hn]
    refine ⟨fun _ => hres, fun h => absurd h (by simp), fun h => absurd h (by simp), ?_⟩
    rw [hres]; exact LF_not_mem_null_marker

/-- C4 at the third row of `exampleTable`, whose text has two lines. -/
theorem C4_GetValue_witness :
    exampleTable.isValidCellPos 2 0 = true
    ∧ (exampleTable.GetValue 2 0).1 = "first [...]".toList
    ∧ LF ∉ (exampleTable.GetValue 2 0).1 :=
  ⟨by decide,
   ((C4_GetValue exampleTable 2 0 (by decide)).2.2.1 (by decide) (by decide)).trans (by decide),
   (C4_GetValue exampleTable 2 0 (by decide)).2.2.2⟩

/-! ### Batched fetch -/

open DataGridTable

theorem fetchLoop_spec (initial fetchAll : Bool) (maxRow : Nat) (clock : Nat → Int)
    (cursor : List FetchOutcome) (i : Nat) (rows : DataGridRows) :
    (fetchLoop initial fetchAll maxRow clock cursor i rows).rowsM.buffersM =
        rows.buffersM ++
          (fetchLoop initial fetchAll maxRow clock cursor i rows).fetchCalls.filterMap
            FetchOutcome.fields?
    ∧ (fetchLoop initial fetchAll maxRow clock cursor i rows).rowsM.columnDefsM =
        rows.columnDefsM
    ∧ (fetchLoop initial fetchAll maxRow clock cursor i rows).cursor =
        cursor.drop (fetchLoop initial fetchAll maxRow clock cursor i rows).fetchCalls.length
    ∧ (fetchLoop initial fetchAll maxRow clock cursor i rows).fetchCalls <+:
        cursor ++ [FetchOutcome.noMoreRows] := by
  induction cursor generalizing i rows with
  | nil => simp [fetchLoop, FetchOutcome.fields?]
  | cons o rest ih =>
    cases o with
    | noMoreRows => simp [fetchLoop, FetchOutcome.fields?, List.prefix_iff_eq_take]
    | ibppException e => simp [fetchLoop, FetchOutcome.fields?, List.prefix_iff_eq_take]
    | otherException => simp [fetchLoop, FetchOutcome.fields?, List.prefix_iff_eq_take]
    | row fields =>
      have ih1 := ih (i + 1) (rows.addRow fields)
      simp only [fetchLoop]
      split
      · simp [FetchOutcome.fields?, DataGridRows.addRow, List.prefix_iff_eq_take]
      · split
        · obtain ⟨h1, h2, h3, h4⟩ := ih1
          refine ⟨?_, ?_, ?_, ?_⟩
          · simp only [h1]
            simp [FetchOutcome.fields?, DataGridRows.addRow]
          · simp only [h2]; rfl
          · simp only [h3]; simp
          · simpa using h4
        · simp [FetchOutcome.fields?, DataGridRows.addRow, List.prefix_iff_eq_take]

theorem fetchLoop_bound (initial : Bool) (maxRow : Nat) (clock : Nat → Int)
    (cursor : List FetchOutcome) (i : Nat) (rows : DataGridRows) :
    (fetchLoop initial false maxRow clock cursor i rows).rowsM.getRowCount ≤
      max maxRow (rows.getRowCount + 1) := by
  induction cursor generalizing i rows with
  | nil => simp [fetchLoop]
  | cons o rest ih =>
    cases o with
    | noMoreRows => simp [fetchLoop]
    | ibppException e => simp [fetchLoop]
    | otherException => simp [fetchLoop]
    | row fields =>
      have ih1 := ih (i + 1) (rows.addRow fields)
      have hlen : (rows.addRow fields).getRowCount = rows.getRowCount + 1 := by
        simp [DataGridRows.addRow, DataGridRows.getRowCount]
      simp only [fetchLoop]
      split
      · simp only [hlen]; omega
      · split
        · rename_i hc
          simp only [Bool.false_and, Bool.false_or, decide_eq_true_eq] at hc
          show (fetchLoop initial false maxRow clock rest (i + 1) (rows.addRow fields)).rowsM.getRowCount
            ≤ _
          omega
        · simp only [hlen]; omega

theorem fetchLoop_allRowsFetched (initial fetchAll : Bool) (maxRow : Nat) (clock : Nat → Int)
    (cursor : List FetchOutcome) (i : Nat) (rows : DataGridRows)
    (h : ∃ o ∈ (fetchLoop initial fetchAll maxRow clock cursor i rows).fetchCalls,
      o.isException = true) :
    (fetchLoop initial fetchAll maxRow clock cursor i rows).allRowsFetchedM = true := by
  induction cursor generalizing i rows with
  | nil => simp [fetchLoop]
  | cons o rest ih =>
    cases o with
    | noMoreRows => simp [fetchLoop]
    | ibppException e => simp [fetchLoop]
    | otherException => simp [fetchLoop]
    | row fields =>
      have ih1 := ih (i + 1) (rows.addRow fields)
      simp only [fetchLoop] at h ⊢
      split
      · rename_i hc
        simp [hc, FetchOutcome.isException] at h
      · rename_i hc
        split
        · rename_i hd
          simp only [hc, hd, if_false, if_true, Bool.false_eq_true] at h
          apply ih1
          obtain ⟨o, ho, hx⟩ := h
          simp only [List.mem_cons] at ho
          rcases ho with ho | ho
          · subst ho; simp [FetchOutcome.isException] at hx
          · exact ⟨o, ho, hx⟩
        · rename_i hd
          simp [hc, hd, FetchOutcome.isException] at h

theorem canFetchMoreRows_eq_none (t : DataGridTable) :
    t.canFetchMoreRows = none ↔ (t.allRowsFetchedM = false ∧ t.statementM = none) := by
  unfold canFetchMoreRows
  cases h1 : t.allRowsFetchedM <;> cases h2 : t.statementM with
  | none => simp
  | some st =>
    cases h3 : st.isSelect <;> cases h4 : st.transaction <;> simp [h3, h4]

theorem canFetchMoreRows_of_allRowsFetched (t : DataGridTable) (h : t.allRowsFetchedM = true) :
    t.canFetchMoreRows = some false := by
  simp [canFetchMoreRows, h]

theorem fetch_of_cannot (t : DataGridTable) (clock : Nat → Int)
    (h : t.canFetchMoreRows = some false) : t.fetch clock = some ⟨t, [], []⟩ := by
  simp [fetch, h]

theorem fetch_of_can (t : DataGridTable) (clock : Nat → Int)
    (h : t.canFetchMoreRows = some true) :
    ∃ st, t.statementM = some st ∧ t.allRowsFetchedM = false ∧
      ∃ r, t.fetch clock = some r
        ∧ r.table =
          { t with
            statementM := some { st with cursor :=
              (fetchLoop (t.rowsM.getRowCount == 0) t.fetchAllRowsM t.maxRowToFetchM clock
                st.cursor 0 t.rowsM).cursor }
            rowsM := (fetchLoop (t.rowsM.getRowCount == 0) t.fetchAllRowsM t.maxRowToFetchM
              clock st.cursor 0 t.rowsM).rowsM
            allRowsFetchedM := (fetchLoop (t.rowsM.getRowCount == 0) t.fetchAllRowsM
              t.maxRowToFetchM clock st.cursor 0 t.rowsM).allRowsFetchedM }
        ∧ r.fetchCalls =
          (fetchLoop (t.rowsM.getRowCount == 0) t.fetchAllRowsM t.maxRowToFetchM clock
            st.cursor 0 t.rowsM).fetchCalls := by
  cases hs : t.statementM with
  | none =>
    cases ha : t.allRowsFetchedM <;> simp [canFetchMoreRows, hs, ha] at h
  | some st =>
    cases ha : t.allRowsFetchedM
    · refine ⟨st, rfl, rfl, ?_⟩
      simp only [fetch, h, hs]
      exact ⟨_, rfl, rfl, rfl⟩
    · simp [canFetchMoreRows, ha] at h

theorem fetch_eq_none (t : DataGridTable) (clock : Nat → Int) :
    t.fetch clock = none ↔ (t.allRowsFetchedM = false ∧ t.statementM = none) := by
  rw [← canFetchMoreRows_eq_none]
  cases hc : t.canFetchMoreRows with
  | none => simp [fetch, hc]
  | some b =>
    cases b
    · simp [fetch_of_cannot t clock hc]
    · obtain ⟨st, _, _, r, hr, _, _⟩ := fetch_of_can t clock hc
      simp [hr]

/-- C5: `fetch` only appends, and appends what was physically fetched.  The call
returns in every state but the one where it dereferences a null statement
handle; when it returns, the cached rows are the rows cached before followed by
one row for each `Fetch()` call of this call that returned true, in the order
of the calls, the columns are as before, and the `Fetch()` calls made are an
initial stretch of the cursor, which the statement has moved past. -/
theorem C5_fetch_appends (t : DataGridTable) (clock : Nat → Int) :
    (t.fetch clock = none ↔ (t.allRowsFetchedM = false ∧ t.statementM = none))
    ∧ ∀ r, t.fetch clock = some r →
        r.table.rowsM.buffersM =
          t.rowsM.buffersM ++ r.fetchCalls.filterMap FetchOutcome.fields?
        ∧ r.table.rowsM.columnDefsM = t.rowsM.columnDefsM
        ∧ ∀ st, t.statementM = some st →
            r.fetchCalls <+: st.cursor ++ [FetchOutcome.noMoreRows]
            ∧ ∃ st1, r.table.statementM = some st1
                ∧ st1.cursor = st.cursor.drop r.fetchCalls.length := by
  refine ⟨fetch_eq_none t clock, ?_⟩
  intro r hr
  cases hc : t.canFetchMoreRows with
  | none => simp [fetch, hc] at hr
  | some b =>
    cases b
    · rw [fetch_of_cannot t clock hc] at hr
      cases hr
      simp only [List.filterMap_nil, List.append_nil, List.nil_prefix, List.length_nil,
        List.drop_zero, true_and]
      exact fun st hst => ⟨st, hst, rfl⟩
    · obtain ⟨st, hst, _, r1, hr1, htab, hcalls⟩ := fetch_of_can t clock hc
      rw [hr1] at hr
      cases hr
      obtain ⟨h1, h2, h3, h4⟩ := fetchLoop_spec (t.rowsM.getRowCount == 0) t.fetchAllRowsM
        t.maxRowToFetchM clock st.cursor 0 t.rowsM
      rw [htab, hcalls]
      refine ⟨h1, h2, ?_⟩
      intro st2 hst2
      rw [hst] at hst2
      cases hst2
      exact ⟨h4, _, rfl, h3⟩

/-- C5 at `failingTable`: two rows are delivered before the cursor raises. -/
theorem C5_fetch_appends_witness :
    ∃ r, failingTable.fetch stillClock = some r
      ∧ r.fetchCalls.filterMap FetchOutcome.fields? = [[some "a".toList], [none]]
      ∧ r.table.rowsM.buffersM = failingTable.rowsM.buffersM ++ [[some "a".toList], [none]] :=
  ⟨_, rfl, by decide,
    ((C5_fetch_appends failingTable stillClock).2 _ rfl).1.trans (by decide)⟩

theorem GetValue_snd (t : DataGridTable) (row col : Int) :
    (t.GetValue row col).2 =
      if !t.isValidCellPos row col then t
      else if t.maxRowToFetchM < (50 * (row / 50 + 5)).toNat % 4294967296 then
        { t with maxRowToFetchM := (50 * (row / 50 + 5)).toNat % 4294967296 }
      else t := by
  unfold DataGridTable.GetValue
  split
  · rfl
  · dsimp only
    split <;> (split <;> [rfl; (split <;> rfl)])

theorem call_keeps_allRowsFetched
    (removeRows : DataGridRows → Nat → Nat → RemoveRowsResult)
    (t : DataGridTable) (c : Call) (h : t.allRowsFetchedM = true) :
    ∃ t1, t.call removeRows c = some t1 ∧ t1.allRowsFetchedM = true := by
  cases c with
  | fetch clock =>
    refine ⟨t, ?_, h⟩
    simp [call, fetch_of_cannot t clock (canFetchMoreRows_of_allRowsFetched t h)]
  | Clear cfg => exact ⟨_, rfl, rfl⟩
  | GetValue row col =>
    refine ⟨_, rfl, ?_⟩
    rw [GetValue_snd]
    split
    · exact h
    · split <;> exact h
  | setFetchAllRecords b => exact ⟨_, rfl, h⟩
  | DeleteRows pos numRows =>
    refine ⟨_, rfl, ?_⟩
    unfold DataGridTable.DeleteRows
    simp only []
    split
    · exact h
    · split
      · split <;> exact h
      · exact h
  | SetView grid => exact ⟨_, rfl, h⟩
  | statementChanged s => exact ⟨_, rfl, h⟩

theorem calls_keep_allRowsFetched
    (removeRows : DataGridRows → Nat → Nat → RemoveRowsResult)
    (cs : List Call) (t : DataGridTable) (h : t.allRowsFetchedM = true) :
    ∃ t2, t.calls removeRows cs = some t2 ∧ t2.allRowsFetchedM = true := by
  induction cs generalizing t with
  | nil => exact ⟨t, rfl, h⟩
  | cons c cs ih =>
    obtain ⟨t1, h1, h2⟩ := call_keeps_allRowsFetched removeRows t c h
    obtain ⟨t2, h3, h4⟩ := ih t1 h2
    exact ⟨t2, by simp [calls, h1, h3], h4⟩

/-- C6: a fetch error is terminal.  Once `fetch` has entered its loop it
returns, whatever `Fetch()` does; and if a `Fetch()` call of the call has
raised, then `allRowsFetchedM` is true afterwards and, after any further calls
other than `initialFetch` (among them `setFetchAllRecords` with either value),
`canFetchMoreRows` and `needsMoreRowsFetched` return false and `fetch` makes no
`Fetch()` call, sends nothing and leaves the table, cache included, as it is. -/
theorem C6_fetch_error_is_terminal
    (removeRows : DataGridRows → Nat → Nat → RemoveRowsResult)
    (t : DataGridTable) (clock : Nat → Int) :
    (t.canFetchMoreRows = some true → ∃ r, t.fetch clock = some r)
    ∧ ∀ r, t.fetch clock = some r → (∃ o ∈ r.fetchCalls, o.isException = true) →
        r.table.allRowsFetchedM = true
        ∧ ∀ cs : List Call, ∃ t2, r.table.calls removeRows cs = some t2
            ∧ t2.canFetchMoreRows = some false
            ∧ t2.needsMoreRowsFetched = false
            ∧ ∀ clock2, t2.fetch clock2 = some ⟨t2, [], []⟩ := by
  constructor
  · intro hcan
    obtain ⟨_, _, _, r, hr, _⟩ := fetch_of_can t clock hcan
    exact ⟨r, hr⟩
  · intro r hr hraise
    have hall : r.table.allRowsFetchedM = true := by
      cases hc : t.canFetchMoreRows with
      | none => simp [fetch, hc] at hr
      | some b =>
        cases b
        · rw [fetch_of_cannot t clock hc] at hr
          cases hr
          simp at hraise
        · obtain ⟨st, _, _, r1, hr1, htab, hcalls⟩ := fetch_of_can t clock hc
          rw [hr1] at hr
          cases hr
          rw [htab]
          rw [hcalls] at hraise
          exact fetchLoop_allRowsFetched _ _ _ _ _ _ _ hraise
    refine ⟨hall, fun cs => ?_⟩
    obtain ⟨t2, h2, h3⟩ := calls_keep_allRowsFetched removeRows cs r.table hall
    have hcan2 := canFetchMoreRows_of_allRowsFetched t2 h3
    exact ⟨t2, h2, hcan2, by simp [needsMoreRowsFetched, h3],
      fun clock2 => fetch_of_cannot t2 clock2 hcan2⟩

/-- C6 at `failingTable`, whose third `Fetch()` raises: the flag is set, and
the flag survives a change of the fetch-all flag and a further `fetch`. -/
theorem C6_fetch_error_is_terminal_witness :
    ∃ r, failingTable.fetch stillClock = some r
      ∧ (∃ o ∈ r.fetchCalls, o.isException = true)
      ∧ r.table.allRowsFetchedM = true
      ∧ ∃ t2, r.table.calls exampleRemoveRows [.setFetchAllRecords true, .fetch stillClock]
            = some t2
          ∧ t2.needsMoreRowsFetched = false :=
  ⟨_, rfl, ⟨.ibppException "lost".toList, by decide, rfl⟩,
    ((C6_fetch_error_is_terminal exampleRemoveRows failingTable stillClock).2 _ rfl
      ⟨.ibppException "lost".toList, by decide, rfl⟩).1,
    (((C6_fetch_error_is_terminal exampleRemoveRows failingTable stillClock).2 _ rfl
      ⟨.ibppException "lost".toList, by decide, rfl⟩).2
        [.setFetchAllRecords true, .fetch stillClock]).imp (fun _ h => ⟨h.1, h.2.2.1⟩)⟩

/-- C7, the claim as stated fails: with the fetch-all flag off and a cache that
already holds `maxRowToFetchM` (one hundred) rows, `fetch` still adds a row. -/
theorem C7_counterexample :
    fullTable.fetchAllRowsM = false
    ∧ fullTable.maxRowToFetchM = 100
    ∧ fullTable.rowsM.getRowCount = 100
    ∧ ∃ r, fullTable.fetch stillClock = some r
        ∧ r.table.rowsM.getRowCount = 101
        ∧ ¬ r.table.rowsM.getRowCount
            ≤ max fullTable.maxRowToFetchM fullTable.rowsM.getRowCount :=
  ⟨rfl, rfl, by decide, _, rfl, by decide, by decide⟩

theorem fetchLoop_fetchCalls_ne_nil (initial fetchAll : Bool) (maxRow : Nat)
    (clock : Nat → Int) (cursor : List FetchOutcome) (i : Nat) (rows : DataGridRows) :
    (fetchLoop initial fetchAll maxRow clock cursor i rows).fetchCalls ≠ [] := by
  cases cursor with
  | nil => simp [fetchLoop]
  | cons o rest =>
    cases o with
    | noMoreRows => simp [fetchLoop]
    | ibppException e => simp [fetchLoop]
    | otherException => simp [fetchLoop]
    | row fields =>
      rw [fetchLoop]
      dsimp only
      split
      · simp
      · split <;> simp

/-- C7, amended: with the fetch-all flag off, `fetch` returns whenever the
statement handle is not null, and the number of cached rows after the call is at
most the larger of `maxRowToFetchM` and one more than the number cached before;
so a call made when the cache already holds `maxRowToFetchM` rows or more adds
at most one row.  A call that finds `canFetchMoreRows` true makes at least one
`Fetch()` call, whatever the cache holds; a call that finds it false makes none. -/
theorem C7_fetch_batch_bound (t : DataGridTable) (clock : Nat → Int)
    (hflag : t.fetchAllRowsM = false) :
    (t.statementM ≠ none → ∃ r, t.fetch clock = some r)
    ∧ ∀ r, t.fetch clock = some r →
        r.table.rowsM.getRowCount ≤ max t.maxRowToFetchM (t.rowsM.getRowCount + 1)
        ∧ (t.maxRowToFetchM ≤ t.rowsM.getRowCount →
            r.table.rowsM.getRowCount ≤ t.rowsM.getRowCount + 1)
        ∧ (t.canFetchMoreRows = some true → r.fetchCalls ≠ [])
        ∧ (t.canFetchMoreRows = some false → r.fetchCalls = []) := by
  constructor
  · intro hst
    cases hf : t.fetch clock with
    | none => exact absurd ((fetch_eq_none t clock).1 hf).2 hst
    | some r => exact ⟨r, rfl⟩
  · intro r hr
    have hb : r.table.rowsM.getRowCount ≤ max t.maxRowToFetchM (t.rowsM.getRowCount + 1) := by
      cases hc : t.canFetchMoreRows with
      | none => simp [fetch, hc] at hr
      | some b =>
        cases b
        · rw [fetch_of_cannot t clock hc] at hr
          cases hr
          simp only [le_max_iff]
          exact Or.inr (Nat.le_succ _)
        · obtain ⟨st, _, _, r1, hr1, htab, _⟩ := fetch_of_can t clock hc
          rw [hr1] at hr
          cases hr
          rw [htab, hflag]
          exact fetchLoop_bound _ _ _ _ _ _
    refine ⟨hb, fun hle => ?_, fun hc => ?_, fun hc => ?_⟩
    · rw [max_eq_right (by omega)] at hb
      exact hb
    · obtain ⟨st, _, _, r1, hr1, _, hcalls⟩ := fetch_of_can t clock hc
      rw [hr1] at hr
      cases hr
      rw [hcalls]
      exact fetchLoop_fetchCalls_ne_nil _ _ _ _ _ _ _
    · rw [fetch_of_cannot t clock hc] at hr
      cases hr
      rfl

/-- C7, amended, at `fullTable`: one `Fetch()` call is made and one row is
added to the hundred. -/
theorem C7_fetch_batch_bound_witness :
    fullTable.fetchAllRowsM = false
    ∧ fullTable.canFetchMoreRows = some true
    ∧ ∃ r, fullTable.fetch stillClock = some r
        ∧ r.table.rowsM.getRowCount ≤ fullTable.rowsM.getRowCount + 1
        ∧ r.fetchCalls ≠ [] :=
  ⟨rfl, rfl, _, rfl, ((C7_fetch_batch_bound fullTable stillClock rfl).2 _ rfl).2.1 (by decide),
    ((C7_fetch_batch_bound fullTable stillClock rfl).2 _ rfl).2.2.1 rfl⟩

/-! ### Row deletion -/

open StatementHistoryDialog

theorem findFrom_ne_notFound_iff (sub s : wxString) (i : Nat) :
    findFrom sub s i ≠ wxNOT_FOUND ↔ sub <:+: s := by
  induction s generalizing i with
  | nil =>
    by_cases h : sub = []
    · simp [findFrom, h, wxNOT_FOUND]
    · simp [findFrom, h]
  | cons c cs ih =>
    by_cases h : sub.isPrefixOf (c :: cs) = true
    · have hp : sub <+: c :: cs := List.isPrefixOf_iff_prefix.1 h
      simp only [findFrom, h, if_true]
      constructor
      · exact fun _ => hp.isInfix
      · intro _; unfold wxNOT_FOUND; omega
    · have hp : ¬ sub <+: c :: cs := fun hp => h (List.isPrefixOf_iff_prefix.2 hp)
      simp only [findFrom, h, if_false, Bool.false_eq_true]
      rw [ih, List.infix_cons_iff]
      simp [hp]

theorem Contains_iff_occurs (s sub : wxString) : Contains s sub = true ↔ sub <:+: s := by
  simp only [Contains, decide_eq_true_eq]
  exact findFrom_ne_notFound_iff sub s 0

theorem castInt_nonneg_of_lt (p : Nat) (h : p < 2147483648) : castInt p ≥ 0 := by
  unfold castInt
  split <;> omega

theorem search_test_iff (towupper : Char → Char) (text s : wxString) :
    ((Upper towupper text).isEmpty || Contains (Upper towupper s) (Upper towupper text)) = true ↔
      (text = [] ∨ Upper towupper text <:+: Upper towupper s) := by
  simp [Contains_iff_occurs, Upper, List.isEmpty_iff]

theorem searchLoop_quiet (towupper : Char → Char)
    (wxYield : Nat → StatementHistoryDialog → StatementHistoryDialog)
    (hquiet : ∀ p d1, (wxYield p d1).isSearchingM = d1.isSearchingM
      ∧ (wxYield p d1).listbox_search = d1.listbox_search
      ∧ (wxYield p d1).historyM = d1.historyM)
    (text : wxString) (total n : Nat) (hn : n ≤ 2147483648)
    (d : StatementHistoryDialog) (hd : d.isSearchingM = true) :
    (searchLoop towupper wxYield (Upper towupper text) total n d).listbox_search =
        d.listbox_search ++
          (((List.range n).reverse.filter
            (fun p => decide (text = [] ∨ Upper towupper text <:+: Upper towupper (d.historyM.get p)))).map
            (fun p => (⟨searchEntry (d.historyM.get p), p⟩ : ListBoxItem)))
    ∧ (searchLoop towupper wxYield (Upper towupper text) total n d).isSearchingM = false := by
  induction n generalizing d with
  | zero => simp [searchLoop, searchDone, setSearching]
  | succ n ih =>
    obtain ⟨hq1, hq2, hq3⟩ := hquiet n d
    have hc : castInt n ≥ 0 := castInt_nonneg_of_lt n (by omega)
    have hs : (wxYield n d).isSearchingM = true := by rw [hq1, hd]
    simp only [searchLoop, hc, if_true, hs, Bool.not_true, Bool.false_eq_true, if_false,
      List.range_succ, List.reverse_append, List.reverse_singleton, List.singleton_append,
      List.filter_cons, hq3]
    by_cases hm : text = [] ∨ Upper towupper text <:+: Upper towupper (d.historyM.get n)
    · have ht := (search_test_iff towupper text (d.historyM.get n)).2 hm
      simp only [ht, if_true, hm, decide_True]
      have := ih (by omega)
        { wxYield n d with
          gauge_progress := castInt ((total : Int) - n - 1)
          listbox_search := (wxYield n d).listbox_search ++ [⟨searchEntry (d.historyM.get n), n⟩] }
        hs
      simp only [hs, hq2, hq3] at this ⊢
      simpa using this
    · have ht : ¬ ((Upper towupper text).isEmpty || Contains (Upper towupper (d.historyM.get n)) (Upper towupper text))
          = true := fun h => hm ((search_test_iff towupper text (d.historyM.get n)).1 h)
      simp only [ht, if_false, hm, decide_False, Bool.false_eq_true]
      have := ih (by omega) { wxYield n d with gauge_progress := castInt ((total : Int) - n - 1) } hs
      simp only [hs, hq2, hq3] at this ⊢
      simpa using this

theorem searchLoop_succ_of_overflow (towupper : Char → Char)
    (wxYield : Nat → StatementHistoryDialog → StatementHistoryDialog)
    (searchString : wxString) (total p : Nat) (d : StatementHistoryDialog)
    (h : castInt p < 0) :
    searchLoop towupper wxYield searchString total (p + 1) d = d.searchDone := by
  simp [searchLoop, not_le.2 h]

theorem castInt_two_pow_31 : castInt (2147483648 : Nat) < 0 := by decide

theorem OnButtonSearchClick_of_overflow (towupper : Char → Char)
    (wxYield : Nat → StatementHistoryDialog → StatementHistoryDialog)
    (d : StatementHistoryDialog) (h : d.isSearchingM = false) (p : Nat)
    (hp : d.historyM.length = p + 1) (hc : castInt p < 0) :
    (OnButtonSearchClick towupper wxYield d).listbox_search = []
    ∧ (OnButtonSearchClick towupper wxYield d).isSearchingM = false := by
  have hsize : (({ d with listbox_search := [], listbox_selections := [] } :
      StatementHistoryDialog).setSearching true).historyM.size = p + 1 := hp
  unfold OnButtonSearchClick
  rw [if_neg (by rw [h]; exact Bool.false_ne_true)]
  dsimp only
  rw [hsize, searchLoop_succ_of_overflow _ _ _ _ _ _ hc]
  exact ⟨rfl, rfl⟩

theorem get_zero_replicate_succ (n : Nat) (a : wxString) :
    StatementHistory.get (List.replicate (n + 1) a) 0 = a := rfl

theorem searchLoop_zero (towupper : Char → Char)
    (wxYield : Nat → StatementHistoryDialog → StatementHistoryDialog)
    (searchString : wxString) (total : Nat) (d : StatementHistoryDialog) :
    searchLoop towupper wxYield searchString total 0 d = d.searchDone := rfl

theorem mem_matchingPositions (towupper : Char → Char) (history : StatementHistory) (text : wxString) (p : Nat) :
    p ∈ matchingPositions towupper history text ↔
      (p < history.length ∧ (text = [] ∨ Upper towupper text <:+: Upper towupper (history.get p))) := by
  simp [matchingPositions]

theorem matchingPositions_descending (towupper : Char → Char) (history : StatementHistory) (text : wxString) :
    (matchingPositions towupper history text).Pairwise (fun p q => p > q) := by
  unfold matchingPositions
  apply List.Pairwise.filter
  rw [List.pairwise_reverse]
  exact List.pairwise_lt_range _

/-- C9, amended: whatever the upper-casing of characters under the current
locale is, for every history log of at most `2^31` entries (the empty one
included) and every search text, a search started while no search is running,
during whose yields no handler changes the searching flag (it is not cancelled),
the result list or the history (no entry is deleted), ends with the searching
flag false and with the result list holding exactly one entry for each position
whose upper-cased text contains the upper-cased search text (every position when
the search text is empty), from the highest position to the lowest, each entry
labelled with the preview of its statement and carrying its position as client
data.  For an empty history the list is empty whatever the yields would do: the
loop body does not run. -/
theorem C9_search_result (towupper : Char → Char)
    (wxYield : Nat → StatementHistoryDialog → StatementHistoryDialog)
    (d : StatementHistoryDialog)
    (hidle : d.isSearchingM = false)
    (hsize : d.historyM.length ≤ 2147483648)
    (hquiet : ∀ p d1, (wxYield p d1).isSearchingM = d1.isSearchingM
      ∧ (wxYield p d1).listbox_search = d1.listbox_search
      ∧ (wxYield p d1).historyM = d1.historyM) :
    (OnButtonSearchClick towupper wxYield d).listbox_search =
        (matchingPositions towupper d.historyM d.textctrl_search).map
          (fun p => (⟨searchEntry (d.historyM.get p), p⟩ : ListBoxItem))
    ∧ (OnButtonSearchClick towupper wxYield d).isSearchingM = false
    ∧ ((OnButtonSearchClick towupper wxYield d).listbox_search.map ListBoxItem.clientData).Pairwise
        (fun p q => p > q)
    ∧ (∀ p, p ∈ (OnButtonSearchClick towupper wxYield d).listbox_search.map ListBoxItem.clientData ↔
        (p < d.historyM.length
          ∧ (d.textctrl_search = [] ∨ Upper towupper d.textctrl_search <:+: Upper towupper (d.historyM.get p))))
    ∧ (d.historyM = [] → ∀ anyYield : Nat → StatementHistoryDialog → StatementHistoryDialog,
        (OnButtonSearchClick towupper anyYield d).listbox_search = []) := by
  have hrun : OnButtonSearchClick towupper wxYield d =
      searchLoop towupper wxYield (Upper towupper d.textctrl_search) d.historyM.length d.historyM.length
        { ({ d with listbox_search := [], listbox_selections := [] } :
            StatementHistoryDialog).setSearching true with
          gauge_range := castInt d.historyM.length } := by
    unfold OnButtonSearchClick
    rw [if_neg (by rw [hidle]; exact Bool.false_ne_true)]
    rfl
  have hloop := searchLoop_quiet towupper wxYield hquiet d.textctrl_search d.historyM.length
    d.historyM.length hsize
    { ({ d with listbox_search := [], listbox_selections := [] } :
        StatementHistoryDialog).setSearching true with
      gauge_range := castInt d.historyM.length } rfl
  rw [← hrun] at hloop
  have hitems : (OnButtonSearchClick towupper wxYield d).listbox_search =
      (matchingPositions towupper d.historyM d.textctrl_search).map
        (fun p => (⟨searchEntry (d.historyM.get p), p⟩ : ListBoxItem)) := by
    rw [hloop.1]
    simp [matchingPositions, setSearching]
  have hdata : (OnButtonSearchClick towupper wxYield d).listbox_search.map ListBoxItem.clientData =
      matchingPositions towupper d.historyM d.textctrl_search := by
    rw [hitems, List.map_map]
    exact List.map_id _
  refine ⟨hitems, hloop.2, ?_, ?_, ?_⟩
  · rw [hdata]; exact matchingPositions_descending _ _ _
  · intro p; rw [hdata]; exact mem_matchingPositions _ _ _ _
  · intro hempty anyYield
    unfold OnButtonSearchClick
    rw [if_neg (by rw [hidle]; exact Bool.false_ne_true)]
    have h0 : (({ d with listbox_search := [], listbox_selections := [] } :
        StatementHistoryDialog).setSearching true).historyM.size = 0 := by
      show d.historyM.length = 0
      rw [hempty]; rfl
    dsimp only
    rw [h0, searchLoop_zero]
    rfl

/-- C9, amended, at `exampleDialog` with the upper-casing of the C locale: the
search for `sel` lists positions 2 and 0; and at `accentDialog` with an
upper-casing that knows accented letters: the search for `é` lists `SELECT É`. -/
theorem C9_search_result_witness :
    exampleDialog.isSearchingM = false
    ∧ exampleDialog.historyM.length ≤ 2147483648
    ∧ (OnButtonSearchClick Char.toUpper idleYield exampleDialog).listbox_search =
        [⟨"Select a from t".toList, 2⟩, ⟨"select 1".toList, 0⟩]
    ∧ (OnButtonSearchClick accentUpper idleYield accentDialog).listbox_search =
        [⟨"SELECT ".toList ++ [Char.ofNat 201], 0⟩] :=
  ⟨rfl, by decide,
    (C9_search_result Char.toUpper idleYield exampleDialog rfl (by decide)
      (fun _ _ => ⟨rfl, rfl, rfl⟩)).1.trans (by decide),
    (C9_search_result accentUpper idleYield accentDialog rfl (by decide)
      (fun _ _ => ⟨rfl, rfl, rfl⟩)).1.trans (by decide)⟩

theorem searchEntry_eq_preview (s : wxString) : searchEntry s = preview s := by
  have h1 : " ".toList = [Char.ofNat 32] := rfl
  have h2 : "...".toList = [Char.ofNat 46, Char.ofNat 46, Char.ofNat 46] := rfl
  unfold searchEntry preview
  simp only [Replace_single, Mid, List.drop_zero, h1, h2]
  by_cases h : s.length ≤ 200
  · rw [if_neg (by omega), if_pos h]
  · rw [if_pos (by omega), if_neg h]

theorem LF_ne_CR : LF ≠ CR := by decide

/-- C10: for every statement text `s` the label of its entry in the result
list is the preview `p(s)`: `s`, cut to its first 200 characters plus `...`
when it is longer, with every line feed replaced by one space and every
carriage return removed.  Hence a label has neither line feed nor carriage
return, has at most 203 characters, and is `s` itself when `s` has at most 200
characters and no line break. -/
theorem C10_search_entry_preview (s : wxString) :
    searchEntry s = preview s
    ∧ LF ∉ searchEntry s
    ∧ CR ∉ searchEntry s
    ∧ (searchEntry s).length ≤ 203
    ∧ (s.length ≤ 200 → LF ∉ s → CR ∉ s → searchEntry s = s) := by
  refine ⟨searchEntry_eq_preview s, ?_, ?_, ?_, ?_⟩
  · rw [searchEntry_eq_preview]
    unfold preview
    apply not_mem_substEach _ _ _ _ (by simp)
    exact Or.inl (not_mem_substEach _ _ _ _ (by decide) (Or.inr rfl))
  · rw [searchEntry_eq_preview]
    unfold preview
    exact not_mem_substEach _ _ _ _ (by simp) (Or.inr rfl)
  · rw [searchEntry_eq_preview]
    unfold preview
    refine le_trans (length_substEach_le _ _ _ (by simp)) ?_
    refine le_trans (length_substEach_le _ _ _ (by simp)) ?_
    split
    · omega
    · simp only [List.length_append, List.length_take, List.length_cons, List.length_nil]
      omega
  · intro hlen hlf hcr
    rw [searchEntry_eq_preview]
    unfold preview
    rw [if_pos hlen, substEach_of_not_mem LF _ s hlf, substEach_of_not_mem CR _ s hcr]

/-- C10 at a short statement without line break, and at the third statement of
`exampleDialog`, which has one. -/
theorem C10_search_entry_preview_witness :
    searchEntry "select 1".toList = "select 1".toList
    ∧ searchEntry ("Select a".toList ++ [CR, LF] ++ "from t".toList)
        = "Select a from t".toList :=
  ⟨(C10_search_entry_preview "select 1".toList).2.2.2.2 (by decide) (by decide) (by decide),
   (C10_search_entry_preview ("Select a".toList ++ [CR, LF] ++ "from t".toList)).1.trans
     (by decide)⟩

/-! ### Liveness test, return value of `DeleteRows`, NULL in delimited text -/

/-- C11: what `canFetchMoreRows` does.  With a null statement handle and
`allRowsFetchedM` false the call dereferences the handle (it tests
`statementM->Type()` before `statementM == 0`) and returns nothing, as on
`nullHandleTable`; with a null handle and `allRowsFetchedM` true it returns
false; with a handle that is not null it returns true exactly when not all rows
have been fetched, the statement is of SELECT type and its transaction handle
is not null and started. -/
theorem C11_canFetchMoreRows_null_handle :
    nullHandleTable.statementM = none
    ∧ nullHandleTable.canFetchMoreRows = none
    ∧ ∀ t : DataGridTable,
        (t.statementM = none → t.allRowsFetchedM = false → t.canFetchMoreRows = none)
        ∧ (t.statementM = none → t.allRowsFetchedM = true → t.canFetchMoreRows = some false)
        ∧ (∀ st, t.statementM = some st →
            t.canFetchMoreRows = some (!t.allRowsFetchedM && st.isSelect
              && decide (st.transaction = some true))) := by
  refine ⟨rfl, rfl, fun t => ⟨?_, ?_, ?_⟩⟩
  · intro hs ha
    exact (canFetchMoreRows_eq_none t).2 ⟨ha, hs⟩
  · intro _ ha
    exact canFetchMoreRows_of_allRowsFetched t ha
  · intro st hs
    unfold DataGridTable.canFetchMoreRows
    rw [hs]
    cases ha : t.allRowsFetchedM <;> cases hi : st.isSelect <;> cases ht : st.transaction
      <;> simp [hi, ht]

/-- C14: the value `DeleteRows` returns.  When `removeRows` reports failure the
call returns false; when `removeRows` succeeds the call reaches the end of its
body without a `return` statement, with or without a grid attached and for
`numRows = 0` as well, as on `exampleTable` for the second of its rows. -/
theorem C14_DeleteRows_returned :
    (exampleRemoveRows exampleTable.rowsM 1 1).ok = true
    ∧ (exampleTable.DeleteRows exampleRemoveRows 1 1).returned = none
    ∧ ∀ (removeRows : DataGridRows → Nat → Nat → DataGridTable.RemoveRowsResult)
        (t : DataGridTable) (pos numRows : Nat),
        ((removeRows t.rowsM pos numRows).ok = true →
          (t.DeleteRows removeRows pos numRows).returned = none)
        ∧ ((removeRows t.rowsM pos numRows).ok = false →
          (t.DeleteRows removeRows pos numRows).returned = some false) := by
  refine ⟨by decide, by decide, fun removeRows t pos numRows => ⟨?_, ?_⟩⟩
  · intro hok
    unfold DataGridTable.DeleteRows
    simp only [hok, Bool.not_true, Bool.false_eq_true, if_false]
    split
    · split <;> rfl
    · rfl
  · intro hok
    simp [DataGridTable.DeleteRows, hok]

theorem csv_of_valid (t : DataGridTable) (row col : Int)
    (hv : t.isValidCellPos row col = true) :
    t.getCellValueForCSV row col =
      if t.rowsM.isFieldNull row col then [DQUOTE] ++ "NULL".toList ++ [DQUOTE]
      else if t.rowsM.isRowFieldNumeric col then t.rowsM.getFieldValue row col
      else [DQUOTE] ++ substEach DQUOTE [DQUOTE, DQUOTE] (t.rowsM.getFieldValue row col)
        ++ [DQUOTE] := by
  simp [DataGridTable.getCellValueForCSV, hv, Replace_single]

theorem substEach_DQUOTE_NULL :
    substEach DQUOTE [DQUOTE, DQUOTE] "NULL".toList = "NULL".toList := by decide

/-- C16: the delimited-text rendering does not tell NULL from the text `NULL`.
For a valid cell whose field is NULL and a valid cell of a column that is not
numeric whose field is the text `NULL`, `getCellValueForCSV` returns the same
string, `NULL` between two double quotes, although the cell contents differ,
whereas `getCellValueForInsert` renders the two cells differently. -/
theorem C16_csv_null_not_distinguished
    (t1 : DataGridTable) (row1 col1 : Int) (t2 : DataGridTable) (row2 col2 : Int)
    (hv1 : t1.isValidCellPos row1 col1 = true) (hv2 : t2.isValidCellPos row2 col2 = true)
    (hnull : t1.rowsM.isFieldNull row1 col1 = true)
    (htext : t2.rowsM.isFieldNull row2 col2 = false)
    (hval : t2.rowsM.getFieldValue row2 col2 = "NULL".toList)
    (hnum : t2.rowsM.isRowFieldNumeric col2 = false) :
    t1.getCellValueForCSV row1 col1 = [DQUOTE] ++ "NULL".toList ++ [DQUOTE]
    ∧ t2.getCellValueForCSV row2 col2 = [DQUOTE] ++ "NULL".toList ++ [DQUOTE]
    ∧ t1.getCellValueForCSV row1 col1 = t2.getCellValueForCSV row2 col2
    ∧ t1.rowsM.isFieldNull row1 col1 ≠ t2.rowsM.isFieldNull row2 col2
    ∧ t1.getCellValueForInsert row1 col1 ≠ t2.getCellValueForInsert row2 col2 := by
  have h1 : t1.getCellValueForCSV row1 col1 = [DQUOTE] ++ "NULL".toList ++ [DQUOTE] := by
    rw [csv_of_valid t1 row1 col1 hv1, if_pos hnull]
  have h2 : t2.getCellValueForCSV row2 col2 = [DQUOTE] ++ "NULL".toList ++ [DQUOTE] := by
    rw [csv_of_valid t2 row2 col2 hv2, if_neg (by rw [htext]; exact Bool.false_ne_true),
      if_neg (by rw [hnum]; exact Bool.false_ne_true), hval, substEach_DQUOTE_NULL]
  refine ⟨h1, h2, h1.trans h2.symm, ?_, ?_⟩
  · rw [hnull, htext]; exact Bool.noConfusion
  · rw [insert_of_valid t1 row1 col1 hv1, insert_of_valid t2 row2 col2 hv2, if_pos hnull,
      if_neg (by rw [htext]; exact Bool.false_ne_true)]
    exact fun h => quoted_ne_NULL _ h.symm

/-- C16 at `nullTextTable`: its two cells, a NULL and the text `NULL`, have
the same delimited-text rendering. -/
theorem C16_csv_null_not_distinguished_witness :
    nullTextTable.rowsM.isFieldNull 0 0 = true
    ∧ nullTextTable.rowsM.isFieldNull 1 0 = false
    ∧ nullTextTable.rowsM.getFieldValue 1 0 = "NULL".toList
    ∧ nullTextTable.getCellValueForCSV 0 0 = nullTextTable.getCellValueForCSV 1 0
    ∧ nullTextTable.getCellValueForInsert 0 0 ≠ nullTextTable.getCellValueForInsert 1 0 :=
  ⟨by decide, by decide, by decide,
    (C16_csv_null_not_distinguished nullTextTable 0 0 nullTextTable 1 0 (by decide) (by decide)
      (by decide) (by decide) (by decide) (by decide)).2.2.1,
    (C16_csv_null_not_distinguished nullTextTable 0 0 nullTextTable 1 0 (by decide) (by decide)
      (by decide) (by decide) (by decide) (by decide)).2.2.2.2⟩

/-! ### Row-count target -/

theorem fetch_maxRowToFetchM (t : DataGridTable) (clock : Nat → Int)
    (r : DataGridTable.FetchResult) (hr : t.fetch clock = some r) :
    r.table.maxRowToFetchM = t.maxRowToFetchM := by
  cases hc : t.canFetchMoreRows with
  | none => simp [fetch, hc] at hr
  | some b =>
    cases b
    · rw [fetch_of_cannot t clock hc] at hr
      cases hr
      rfl
    · obtain ⟨st, _, _, r1, hr1, htab, _⟩ := fetch_of_can t clock hc
      rw [hr1] at hr
      cases hr
      rw [htab]

theorem row_bounds_of_valid (t : DataGridTable) (row col : Int)
    (hv : t.isValidCellPos row col = true) : 0 ≤ row ∧ row < 2147483648 := by
  have h := castInt_lt t.rowsM.getRowCount
  simp only [DataGridTable.isValidCellPos, Bool.and_eq_true, decide_eq_true_eq] at hv
  omega

theorem GetValue_target_of_valid (t : DataGridTable) (row col : Int)
    (hv : t.isValidCellPos row col = true) :
    ((t.GetValue row col).2.maxRowToFetchM : Int) =
      max (t.maxRowToFetchM : Int) (50 * (row / 50 + 5)) := by
  obtain ⟨h0, h1⟩ := row_bounds_of_valid t row col hv
  rw [GetValue_snd]
  simp only [hv, Bool.not_true, Bool.false_eq_true, if_false]
  split
  · rename_i hlt
    simp only []
    omega
  · rename_i hge
    omega

theorem GetValue_target_of_invalid (t : DataGridTable) (row col : Int)
    (hv : t.isValidCellPos row col = false) : (t.GetValue row col).2 = t := by
  rw [GetValue_snd]
  simp [hv]

theorem DeleteRows_table
    (removeRows : DataGridRows → Nat → Nat → DataGridTable.RemoveRowsResult)
    (t : DataGridTable) (pos numRows : Nat) :
    (t.DeleteRows removeRows pos numRows).table =
      { t with rowsM := (removeRows t.rowsM pos numRows).rowsM } := by
  unfold DataGridTable.DeleteRows
  dsimp only
  split
  · rfl
  · split
    · split <;> rfl
    · rfl

theorem call_keeps_target_shape
    (removeRows : DataGridRows → Nat → Nat → DataGridTable.RemoveRowsResult)
    (t t1 : DataGridTable) (c : DataGridTable.Call) (hc : t.call removeRows c = some t1)
    (h : 50 ∣ t.maxRowToFetchM ∧ 100 ≤ t.maxRowToFetchM) :
    50 ∣ t1.maxRowToFetchM ∧ 100 ≤ t1.maxRowToFetchM := by
  cases c with
  | fetch clock =>
    cases hf : t.fetch clock with
    | none => simp [call, hf] at hc
    | some r =>
      simp only [call, hf, Option.map_some', Option.some.injEq] at hc
      rw [← hc, fetch_maxRowToFetchM t clock r hf]
      exact h
  | Clear cfg =>
    simp only [call, Option.some.injEq] at hc
    rw [← hc]; exact h
  | GetValue row col =>
    simp only [call, Option.some.injEq] at hc
    rw [← hc]
    cases hv : t.isValidCellPos row col
    · rw [GetValue_target_of_invalid t row col hv]; exact h
    · have := GetValue_target_of_valid t row col hv
      obtain ⟨h0, h1⟩ := row_bounds_of_valid t row col hv
      omega
  | setFetchAllRecords b =>
    simp only [call, Option.some.injEq] at hc
    rw [← hc]; exact h
  | DeleteRows pos numRows =>
    simp only [call, Option.some.injEq] at hc
    rw [← hc, DeleteRows_table removeRows t pos numRows]
    exact h
  | SetView grid =>
    simp only [call, Option.some.injEq] at hc
    rw [← hc]; exact h
  | statementChanged s =>
    simp only [call, Option.some.injEq] at hc
    rw [← hc]; exact h

theorem initialFetch_eq (initRows : Option Statement → DataGridRows → DataGridTable.InitOutcome)
    (t : DataGridTable) (configFetchAll : Option Bool) (clock : Nat → Int)
    (r : DataGridTable.FetchResult) (hr : t.initialFetch initRows configFetchAll clock = some r) :
    ∃ (t3 : DataGridTable) (r3 : DataGridTable.FetchResult),
      t3.maxRowToFetchM = 100 ∧ t3.allRowsFetchedM = false ∧ t3.statementM = t.statementM
      ∧ t3.fetch clock = some r3 ∧ r.table = r3.table ∧ r.fetchCalls = r3.fetchCalls := by
  unfold DataGridTable.initialFetch at hr
  dsimp only at hr
  split at hr
  · exact absurd hr (by simp)
  · rename_i r3 hf
    simp only [Option.some.injEq] at hr
    refine ⟨_, r3, ?_, ?_, ?_, hf, ?_, ?_⟩
    · rfl
    · rfl
    · rfl
    · rw [← hr]
    · rw [← hr]

theorem reachable_target_shape (t : DataGridTable) (h : t.Reachable) :
    50 ∣ t.maxRowToFetchM ∧ 100 ≤ t.maxRowToFetchM := by
  induction h with
  | new s cfg => exact ⟨⟨2, rfl⟩, Nat.le_refl 100⟩
  | call removeRows t t1 c _ hc ih => exact call_keeps_target_shape removeRows t t1 c hc ih
  | initialFetch initRows t cfg clock r _ hr _ =>
    obtain ⟨t3, r3, h100, _, _, hf, htab, _⟩ := initialFetch_eq initRows t cfg clock r hr
    rw [htab, fetch_maxRowToFetchM t3 clock r3 hf, h100]
    exact ⟨by decide, by decide⟩

/-- C13: in every state a table can reach (through the constructor,
`initialFetch`, `GetValue` and every other embedded call) the row-count target
`maxRowToFetchM` is a multiple of 50 and at least 100.  On a valid cell
`GetValue (row, col)` sets the target to the larger of the old target and
`50 * (row div 50 + 5)` and never lowers it; afterwards the target exceeds
`row` by at least 201, and by at most 250 when the call has raised it.  On an
invalid cell position `GetValue` leaves the table, the target included, as it
is. -/
theorem C13_row_count_target :
    (∀ t : DataGridTable, t.Reachable → 50 ∣ t.maxRowToFetchM ∧ 100 ≤ t.maxRowToFetchM)
    ∧ (∀ (t : DataGridTable) (row col : Int), t.isValidCellPos row col = true →
        ((t.GetValue row col).2.maxRowToFetchM : Int) =
            max (t.maxRowToFetchM : Int) (50 * (row / 50 + 5))
        ∧ t.maxRowToFetchM ≤ (t.GetValue row col).2.maxRowToFetchM
        ∧ row + 201 ≤ ((t.GetValue row col).2.maxRowToFetchM : Int)
        ∧ (t.maxRowToFetchM < (t.GetValue row col).2.maxRowToFetchM →
            ((t.GetValue row col).2.maxRowToFetchM : Int) ≤ row + 250))
    ∧ (∀ (t : DataGridTable) (row col : Int), t.isValidCellPos row col = false →
        (t.GetValue row col).2 = t) := by
  refine ⟨reachable_target_shape, ?_, GetValue_target_of_invalid⟩
  intro t row col hv
  have h := GetValue_target_of_valid t row col hv
  obtain ⟨h0, h1⟩ := row_bounds_of_valid t row col hv
  refine ⟨h, ?_, ?_, ?_⟩
  · omega
  · omega
  · intro hlt
    omega

/-- C13 at `exampleTable`: showing its third row raises the target from 100 to
250, and a position outside the cache leaves it at 100. -/
theorem C13_row_count_target_witness :
    exampleTable.isValidCellPos 2 0 = true
    ∧ ((exampleTable.GetValue 2 0).2.maxRowToFetchM : Int) = 250
    ∧ exampleTable.isValidCellPos 3 0 = false
    ∧ (exampleTable.GetValue 3 0).2.maxRowToFetchM = 100 :=
  ⟨by decide, ((C13_row_count_target.2.1 exampleTable 2 0 (by decide)).1).trans (by decide),
    by decide, congrArg DataGridTable.maxRowToFetchM (C13_row_count_target.2.2 exampleTable 3 0
      (by decide))⟩

/-! ### First batch -/

theorem deliverable_cons_row (fields : List DataGridField) (rest : List FetchOutcome) :
    deliverable (FetchOutcome.row fields :: rest) = deliverable rest + 1 := by
  simp [deliverable, FetchOutcome.fields?, List.takeWhile]

theorem fetchLoop_initial (fetchAll : Bool) (maxRow : Nat) (clock : Nat → Int)
    (cursor : List FetchOutcome) (i : Nat) (rows : DataGridRows)
    (hlt : rows.getRowCount < maxRow)
    (hno : ∀ o ∈ (fetchLoop true fetchAll maxRow clock cursor i rows).fetchCalls,
      o.isException = false) :
    (fetchLoop true fetchAll maxRow clock cursor i rows).rowsM.getRowCount =
        min (rows.getRowCount + deliverable cursor) maxRow
    ∧ ((fetchLoop true fetchAll maxRow clock cursor i rows).allRowsFetchedM = true ↔
        rows.getRowCount + deliverable cursor < maxRow) := by
  induction cursor generalizing i rows with
  | nil =>
    simp only [fetchLoop, deliverable, List.takeWhile_nil, List.length_nil, Nat.add_zero, true_iff]
    exact ⟨by omega, hlt⟩
  | cons o rest ih =>
    cases o with
    | noMoreRows =>
      simp only [fetchLoop, deliverable, FetchOutcome.fields?, Option.isSome_none,
        Bool.false_eq_true, not_false_eq_true, List.takeWhile_cons_of_neg, List.length_nil,
        Nat.add_zero, true_iff]
      exact ⟨by omega, hlt⟩
    | ibppException e =>
      have := hno (.ibppException e) (by simp [fetchLoop])
      simp [FetchOutcome.isException] at this
    | otherException =>
      have := hno .otherException (by simp [fetchLoop])
      simp [FetchOutcome.isException] at this
    | row fields =>
      have hlen : (rows.addRow fields).getRowCount = rows.getRowCount + 1 := by
        simp [DataGridRows.addRow, DataGridRows.getRowCount]
      rw [deliverable_cons_row]
      simp only [fetchLoop, Bool.not_true, Bool.false_and, Bool.and_false, Bool.false_or,
        Bool.false_eq_true, if_false, decide_eq_true_eq, hlen] at hno ⊢
      split
      · rename_i hc
        rw [if_pos hc] at hno
        have := ih (i + 1) (rows.addRow fields) (by rw [hlen]; exact hc)
          (fun o ho => hno o (List.mem_cons_of_mem _ ho))
        rw [hlen] at this
        constructor
        · rw [this.1]; congr 1; omega
        · rw [this.2]; omega
      · rename_i hc
        simp only [hlen]
        constructor
        · omega
        · simp; omega

/-- C12: the first batch is fetched in full, whatever the clock shows.  In
every reachable state in which the cache is empty and `canFetchMoreRows` holds,
`fetch` returns, and if none of its `Fetch()` calls has raised then, for every
clock and for either value of the fetch-all flag, the cache holds exactly
`min (N, maxRowToFetchM)` rows afterwards, where `N` is the number of rows the
cursor could still deliver, and `allRowsFetchedM` is true afterwards if and only
if `N < maxRowToFetchM`. -/
theorem C12_first_batch (t : DataGridTable) (clock : Nat → Int)
    (hreach : t.Reachable)
    (hempty : t.rowsM.getRowCount = 0)
    (hcan : t.canFetchMoreRows = some true) :
    ∃ st r, t.statementM = some st ∧ t.fetch clock = some r
      ∧ ((∀ o ∈ r.fetchCalls, o.isException = false) →
          r.table.rowsM.getRowCount = min (deliverable st.cursor) t.maxRowToFetchM
          ∧ (r.table.allRowsFetchedM = true ↔ deliverable st.cursor < t.maxRowToFetchM)) := by
  obtain ⟨st, hst, _, r, hr, htab, hcalls⟩ := fetch_of_can t clock hcan
  refine ⟨st, r, hst, hr, ?_⟩
  intro hno
  have hmax := (reachable_target_shape t hreach).2
  rw [hcalls] at hno
  have hinit : (t.rowsM.getRowCount == 0) = true := by rw [hempty]; rfl
  rw [hinit] at hno
  have h := fetchLoop_initial t.fetchAllRowsM t.maxRowToFetchM clock st.cursor 0 t.rowsM
    (by omega) hno
  rw [hempty, Nat.zero_add] at h
  rw [htab, hinit]
  exact h

/-- C12 at `freshTable`, with the fetch-all flag on and a clock that jumps by a
second at every reading: both rows of the cursor are cached and the cursor is
found exhausted. -/
theorem C12_first_batch_witness :
    freshTable.rowsM.getRowCount = 0
    ∧ freshTable.fetchAllRowsM = true
    ∧ ∃ st r, freshTable.statementM = some st ∧ freshTable.fetch slowClock = some r
        ∧ deliverable st.cursor = 2
        ∧ r.table.rowsM.getRowCount = min (deliverable st.cursor) freshTable.maxRowToFetchM
        ∧ r.table.allRowsFetchedM = true := by
  refine ⟨rfl, rfl, ?_⟩
  obtain ⟨st, r, hst, hr, h⟩ :=
    C12_first_batch freshTable slowClock (DataGridTable.Reachable.new _ _) rfl rfl
  have hst2 : st = freshStatement := Option.some.inj (hst.symm.trans rfl)
  have hcalls : r.fetchCalls = [.row [some "a".toList], .row [none], .noMoreRows] := by
    have hmap : (freshTable.fetch slowClock).map (fun x => x.fetchCalls) =
        some [.row [some "a".toList], .row [none], .noMoreRows] := by decide
    rw [hr] at hmap
    exact Option.some.inj hmap
  have hno : ∀ o ∈ r.fetchCalls, o.isException = false := by
    rw [hcalls]; decide
  have hd : deliverable st.cursor = 2 := by rw [hst2]; decide
  exact ⟨st, r, hst, hr, hd, (h hno).1, (h hno).2.2 (by rw [hd]; decide)⟩

/-! ### Buttons during a search -/

theorem run_yieldReturns_idle (towupper : Char → Char) (d : StatementHistoryDialog) (n : Nat) :
    run towupper ⟨d, []⟩ (List.replicate n DialogEvent.yieldReturns) = ⟨d, []⟩ := by
  induction n with
  | zero => rfl
  | succ n ih => simpa [List.replicate, run, step] using ih

theorem searchLoop_succ_idle (towupper : Char → Char) (searchString : wxString) (total p : Nat)
    (d : StatementHistoryDialog) (hc : castInt p ≥ 0) :
    (⟨searchLoop towupper idleYield searchString total (p + 1) d, []⟩ : DialogRun) =
      if !d.isSearchingM then ⟨{ d with gauge_progress := 0 }, []⟩
      else ⟨searchLoop towupper idleYield searchString total p
        (if searchString.isEmpty || Contains (Upper towupper (d.historyM.get p)) searchString then
          { d with
            gauge_progress := castInt ((total : Int) - p - 1)
            listbox_search := d.listbox_search ++ [⟨searchEntry (d.historyM.get p), p⟩] }
        else { d with gauge_progress := castInt ((total : Int) - p - 1) }), []⟩ := by
  rw [searchLoop, if_pos hc]
  show (⟨if (!d.isSearchingM) = true then _ else _, []⟩ : DialogRun) = _
  by_cases hs : (!d.isSearchingM) = true
  · rw [if_pos hs, if_pos hs]
    rfl
  · rw [if_neg hs, if_neg hs]
    rfl

theorem afterYield_idle (towupper : Char → Char) (searchString : wxString) (total p : Nat)
    (d : StatementHistoryDialog) :
    afterYield towupper ⟨searchString, total, p⟩ d [] =
      if !d.isSearchingM then ⟨{ d with gauge_progress := 0 }, []⟩
      else loopHead searchString total p
        (if searchString.isEmpty || Contains (Upper towupper (d.historyM.get p)) searchString then
          { d with
            gauge_progress := castInt ((total : Int) - p - 1)
            listbox_search := d.listbox_search ++ [⟨searchEntry (d.historyM.get p), p⟩] }
        else { d with gauge_progress := castInt ((total : Int) - p - 1) }) [] := by
  unfold afterYield
  by_cases hs : (!d.isSearchingM) = true
  · rw [if_pos hs]
  · rw [if_neg hs]

theorem run_loopHead_idle (towupper : Char → Char) (searchString : wxString) (total n : Nat)
    (d : StatementHistoryDialog) :
    run towupper (loopHead searchString total n d []) (List.replicate n DialogEvent.yieldReturns) =
      ⟨searchLoop towupper idleYield searchString total n d, []⟩ := by
  induction n generalizing d with
  | zero => rfl
  | succ p ih =>
    by_cases hc : castInt p ≥ 0
    · have h1 : loopHead searchString total (p + 1) d [] =
          ⟨d, [⟨searchString, total, p⟩]⟩ := by
        rw [loopHead, if_pos hc]
      have h2 : run towupper ⟨d, [⟨searchString, total, p⟩]⟩
          (List.replicate (p + 1) DialogEvent.yieldReturns) =
          run towupper (afterYield towupper ⟨searchString, total, p⟩ d [])
            (List.replicate p DialogEvent.yieldReturns) := rfl
      rw [h1, h2, afterYield_idle, searchLoop_succ_idle _ _ _ _ _ hc]
      cases hs : d.isSearchingM
      · exact run_yieldReturns_idle _ _ _
      · exact ih _
    · have h1 : loopHead searchString total (p + 1) d [] = ⟨d.searchDone, []⟩ := by
        rw [loopHead, if_neg hc]
      rw [h1, searchLoop_succ_of_overflow _ _ _ _ _ _ (not_le.1 hc)]
      exact run_yieldReturns_idle _ _ _

theorem run_search_idle (towupper : Char → Char) (d : StatementHistoryDialog) :
    run towupper ⟨d, []⟩
        (DialogEvent.searchClick :: List.replicate d.historyM.length DialogEvent.yieldReturns) =
      ⟨OnButtonSearchClick towupper idleYield d, []⟩ := by
  by_cases hs : d.isSearchingM = true
  · simp only [run, step, beginSearchClick, OnButtonSearchClick, hs, if_true]
    exact run_yieldReturns_idle _ _ _
  · simp only [run, step, beginSearchClick, OnButtonSearchClick, hs, if_false]
    exact run_loopHead_idle _ _ _ _ _

theorem deleteLoop_keeps (temp : List Nat) (n : Nat) (d : StatementHistoryDialog) :
    (deleteLoop temp n d).isSearchingM = d.isSearchingM
    ∧ (deleteLoop temp n d).button_delete = d.button_delete
    ∧ (deleteLoop temp n d).button_copy = d.button_copy := by
  induction n generalizing d with
  | zero => exact ⟨rfl, rfl, rfl⟩
  | succ i ih =>
    rw [deleteLoop]
    split
    · exact ih _
    · exact ⟨rfl, rfl, rfl⟩

theorem OnButtonDeleteClick_keeps (d : StatementHistoryDialog) :
    d.OnButtonDeleteClick.isSearchingM = d.isSearchingM
    ∧ d.OnButtonDeleteClick.button_delete = d.button_delete
    ∧ d.OnButtonDeleteClick.button_copy = d.button_copy := by
  unfold OnButtonDeleteClick
  dsimp only
  split
  · exact ⟨rfl, rfl, rfl⟩
  · exact deleteLoop_keeps _ _ _

theorem searchDone_not_searching (d : StatementHistoryDialog) :
    d.searchDone.isSearchingM = false := rfl

theorem loopHead_keeps (searchString : wxString) (total n : Nat) (d : StatementHistoryDialog)
    (pending : List SearchFrame) (h : buttonsOffWhileSearching d) :
    buttonsOffWhileSearching (loopHead searchString total n d pending).dialog := by
  cases n with
  | zero => intro hs; rw [loopHead, searchDone_not_searching] at hs; exact absurd hs (by simp)
  | succ p =>
    rw [loopHead]
    split
    · exact h
    · intro hs; rw [searchDone_not_searching] at hs; exact absurd hs (by simp)

theorem afterYield_keeps (towupper : Char → Char) (f : SearchFrame) (d : StatementHistoryDialog)
    (pending : List SearchFrame) (h : buttonsOffWhileSearching d) :
    buttonsOffWhileSearching (afterYield towupper f d pending).dialog := by
  unfold afterYield
  split
  · rename_i hs
    intro hs2
    simp only [Bool.not_eq_true'] at hs
    exact absurd (hs.symm.trans hs2) (by simp)
  · apply loopHead_keeps
    dsimp only
    split <;> exact h

theorem beginSearchClick_keeps (towupper : Char → Char) (d : StatementHistoryDialog) (pending : List SearchFrame) :
    buttonsOffWhileSearching (beginSearchClick towupper d pending).dialog := by
  unfold beginSearchClick
  split
  · intro hs
    exact absurd hs (by simp [setSearching])
  · apply loopHead_keeps
    intro _
    exact ⟨rfl, rfl⟩

theorem step_keeps (towupper : Char → Char) (c : DialogRun) (e : DialogEvent)
    (hsel : ∀ sel, e = DialogEvent.listBoxSelect sel → c.dialog.isSearchingM = false)
    (h : buttonsOffWhileSearching c.dialog) :
    buttonsOffWhileSearching (step towupper c e).dialog := by
  cases e with
  | searchClick => exact beginSearchClick_keeps _ _ _
  | listBoxSelect sel =>
    have hf := hsel sel rfl
    intro hs
    have : c.dialog.isSearchingM = true := hs
    rw [hf] at this
    exact absurd this (by simp)
  | deleteClick =>
    obtain ⟨h1, h2, h3⟩ := OnButtonDeleteClick_keeps c.dialog
    intro hs
    show c.dialog.OnButtonDeleteClick.button_delete = false
      ∧ c.dialog.OnButtonDeleteClick.button_copy = false
    rw [h2, h3]
    exact h (h1 ▸ hs)
  | setSearching b =>
    cases b
    · intro hs; exact absurd hs (by simp [step, setSearching])
    · intro _; exact ⟨rfl, rfl⟩
  | editSearchText text => exact h
  | yieldReturns =>
    show buttonsOffWhileSearching (match c.pending with
      | [] => c
      | f :: rest => afterYield towupper f c.dialog rest).dialog
    split
    · exact h
    · exact afterYield_keeps _ _ _ _ h

theorem run_keeps (towupper : Char → Char) (es : List DialogEvent) (c : DialogRun)
    (hsel : noSelectWhileSearching towupper c es = true) (h : buttonsOffWhileSearching c.dialog) :
    buttonsOffWhileSearching (run towupper c es).dialog := by
  induction es generalizing c with
  | nil => exact h
  | cons e es ih =>
    simp only [noSelectWhileSearching, Bool.and_eq_true] at hsel
    apply ih (step towupper c e) hsel.2
    apply step_keeps towupper c e _ h
    intro sel he
    subst he
    simpa using hsel.1

/-- C15: the buttons while a search runs, whatever the upper-casing of
characters is.  On `twoStatements`, after the
events `selectWhileSearching` (a search is started, its first yield returns,
and during the second yield the user selects the entry listed so far, so that
`OnListBoxSelect` runs) the searching flag is true and both buttons are
enabled.  In every run in which no list selection is handled while the flag is
set, the flag being true implies that both buttons are disabled, at every
yield of `OnButtonSearchClick` and after every handler. -/
theorem C15_buttons_while_searching (towupper : Char → Char) :
    ((run towupper (start twoStatements) selectWhileSearching).dialog.isSearchingM = true
      ∧ (run towupper (start twoStatements) selectWhileSearching).dialog.button_delete = true
      ∧ (run towupper (start twoStatements) selectWhileSearching).dialog.button_copy = true
      ∧ (run towupper (start twoStatements) selectWhileSearching).pending ≠ [])
    ∧ ∀ (history : StatementHistory) (es : List DialogEvent),
        noSelectWhileSearching towupper (start history) es = true →
        (run towupper (start history) es).dialog.isSearchingM = true →
        (run towupper (start history) es).dialog.button_delete = false
        ∧ (run towupper (start history) es).dialog.button_copy = false := by
  refine ⟨⟨rfl, rfl, rfl, ?_⟩, ?_⟩
  · intro h
    have h1 : (run towupper (start twoStatements) selectWhileSearching).pending.length = 1 := rfl
    rw [h] at h1
    exact absurd h1 (by decide)
  · intro history es hsel
    exact run_keeps towupper es (start history) hsel
      (fun h => absurd (h : false = true) Bool.false_ne_true)

/-! ### Where the search misses entries -/

theorem deleteDuringYield_keeps_flag (p : Nat) (d : StatementHistoryDialog) :
    (deleteDuringYield p d).isSearchingM = d.isSearchingM := by
  unfold deleteDuringYield
  split
  · exact (OnButtonDeleteClick_keeps _).1
  · rfl

/-- C9, the claim as stated fails, in two ways, whatever the upper-casing of
characters is.  First, on a history of `2^31 + 1` entries, each of which
contains the search text, a search during which no handler runs ends at once
(the conversion `(int)p` of the first position `p = 2^31` is negative) and
leaves the result list empty, although position 0 has to be listed.  Second, on
a history of three entries and with an empty search text, a search that is
never cancelled (no yield changes the searching flag) but during whose last
yield the user deletes the entry listed for position 1 ends with entries for
the positions 2 and 0 only: neither the positions of the history the search
started on (2, 1, 0) nor those of the history it ends on (1, 0). -/
theorem C9_counterexample :
    (hugeDialog.isSearchingM = false
      ∧ hugeDialog.historyM.length = 2147483649
      ∧ ∀ towupper : Char → Char,
          0 ∈ matchingPositions towupper hugeDialog.historyM hugeDialog.textctrl_search
          ∧ (OnButtonSearchClick towupper idleYield hugeDialog).listbox_search = []
          ∧ (OnButtonSearchClick towupper idleYield hugeDialog).isSearchingM = false)
    ∧ ((∀ p d, (deleteDuringYield p d).isSearchingM = d.isSearchingM)
      ∧ ∀ towupper : Char → Char,
          ((OnButtonSearchClick towupper deleteDuringYield
              (StatementHistoryDialog.new threeStatements)).listbox_search.map
              ListBoxItem.clientData = [2, 0]
          ∧ (OnButtonSearchClick towupper deleteDuringYield
              (StatementHistoryDialog.new threeStatements)).isSearchingM = false
          ∧ (OnButtonSearchClick towupper deleteDuringYield
              (StatementHistoryDialog.new threeStatements)).historyM
              = ["aaa".toList, "ccc".toList]
          ∧ matchingPositions towupper threeStatements [] = [2, 1, 0]
          ∧ matchingPositions towupper ["aaa".toList, "ccc".toList] [] = [1, 0])) := by
  have hlen : hugeDialog.historyM.length = 2147483648 + 1 :=
    List.length_replicate 2147483649 "A".toList
  refine ⟨⟨rfl, hlen, fun towupper => ⟨?_,
    OnButtonSearchClick_of_overflow towupper idleYield hugeDialog rfl 2147483648 hlen
      castInt_two_pow_31⟩⟩,
    deleteDuringYield_keeps_flag, fun towupper => ⟨rfl, rfl, rfl, rfl, rfl⟩⟩
  unfold matchingPositions
  rw [List.mem_filter, List.mem_reverse, List.mem_range, hlen]
  refine ⟨by omega, ?_⟩
  have hget : StatementHistory.get hugeDialog.historyM 0 = "A".toList :=
    get_zero_replicate_succ 2147483648 "A".toList
  rw [hget]
  exact decide_eq_true (Or.inr (List.infix_refl _))

end FlameRobin
